import Mathlib

/-!
A verification development for the godot_docgen repository.

The Python sources under `src/godot_docgen/` are shallowly embedded here:
strings are lists of characters with Python's indexing/`find`/slice
semantics, mutable objects that are aliased in Python (nodes, resources)
live in explicit arenas indexed by natural numbers, the shared `State`
object is threaded explicitly, and every place where the Python code can
raise an uncaught exception (out-of-range indexing, `None` attribute
access, unbound locals, missing dictionary keys) is modelled as an
explicit `Crash` outcome.
-/

namespace GD

deriving instance DecidableEq for Except

/-- Python strings, embedded as lists of characters. -/
abbrev Str := List Char

/-- Literal helper: a Lean string literal seen as a Python string. -/
def lit (s : String) : Str := s.data

/-- Python's normalisation of a slice index: negative indices count from
the end (clamped to 0), positive ones are clamped to the length. -/
def normIdx (len : Nat) (i : Int) : Nat :=
  if i < 0 then ((len : Int) + i).toNat else min i.toNat len

/-- Python's `t[a:b]` slice (never raises). -/
def pySlice (t : Str) (a b : Int) : Str :=
  (t.take (normIdx t.length b)).drop (normIdx t.length a)

/-- Python's `t[a:]` slice. -/
def pyDrop (t : Str) (a : Int) : Str :=
  t.drop (normIdx t.length a)

/-- Python's `t[:b]` slice. -/
def pyTake (t : Str) (b : Int) : Str :=
  t.take (normIdx t.length b)

/-- Python's `t[i]` character access; `none` models an `IndexError`.
Negative indices count from the end. -/
def pyGet (t : Str) (i : Int) : Option Char :=
  if i < 0 then
    if (-i) ≤ (t.length : Int) then t.get? ((t.length : Int) + i).toNat else none
  else t.get? i.toNat

/-- Whether `sub` occurs in `t` starting exactly at position `i`. -/
def subAt (t sub : Str) (i : Nat) : Bool :=
  sub.isPrefixOf (t.drop i)

/-- Scan positions `i, i+1, ...` while `i + sub.length ≤ e`, returning the
first position where `sub` occurs.  Structural fuel recursion so that the
kernel can evaluate it; a fuel of `e + 1` always suffices. -/
def findScan (t sub : Str) (e : Nat) : Nat → Nat → Option Nat
  | _, 0 => none
  | i, fuel + 1 =>
    if i + sub.length ≤ e then
      if subAt t sub i then some i
      else findScan t sub e (i + 1) fuel
    else none

/-- Python's `t.find(sub, start, stop)`: `-1` when absent.  A `stop` of
`none` means the end of the string; a negative `stop` counts from the end
(this is how `escape_rst`'s `until_pos = -1` default excludes the final
character of the text). -/
def pyFind3 (t sub : Str) (start : Int) (stop : Option Int) : Int :=
  let s := normIdx t.length start
  let e := match stop with
    | none => t.length
    | some st => normIdx t.length st
  match findScan t sub e s (e + 1) with
  | some i => (i : Int)
  | none => -1

/-- Python's two-argument `t.find(sub, start)`. -/
def pyFind (t sub : Str) (start : Int) : Int :=
  pyFind3 t sub start none

/-- Python's `sub in t` substring test. -/
def containsSub (t sub : Str) : Bool :=
  pyFind t sub 0 ≠ -1

/-- Python's `t.startswith(p)`. -/
def pyStarts (t p : Str) : Bool :=
  p.isPrefixOf t

/-- Python's `t.endswith(p)`. -/
def pyEnds (t p : Str) : Bool :=
  p.reverse.isPrefixOf t.reverse

/-- Characters stripped by Python's `str.strip()` on the inputs in scope. -/
def isPyWs (c : Char) : Bool :=
  c = ' ' || c = '\t' || c = '\n' || c = '\r' || c = '\x0b' || c = '\x0c'

/-- Python's `t.strip()`. -/
def pyStrip (t : Str) : Str :=
  ((t.dropWhile isPyWs).reverse.dropWhile isPyWs).reverse

/-- Python's `t.strip('"')`. -/
def stripQuotes (t : Str) : Str :=
  ((t.dropWhile (· = '"')).reverse.dropWhile (· = '"')).reverse

/-- Python's `str.isalnum()` restricted to ASCII, which is all the
sources ever feed it. -/
def pyAlnum (c : Char) : Bool :=
  c.isAlpha || c.isDigit

/-- A character matched by the regex class `\w`. -/
def isWordChar (c : Char) : Bool :=
  pyAlnum c || c = '_'

/-- Decimal rendering of a natural number (Python's `f'{n}'`). -/
def natToStr (n : Nat) : Str :=
  (Nat.toDigits 10 n)

/-! ## Uncaught Python exceptions

Each constructor records the kind of exception the interpreter would
raise; `fuelOut` is an artefact of the fuel-based embedding of loops and
never occurs on the runs analysed below. -/

inductive Crash
  | indexError
  | attrError
  | typeError
  | keyError
  | nameError
  | valueError
  | fuelOut
  deriving DecidableEq, Repr

/-! ## Diagnostics

One constructor per distinct message site in the sources.  `emitted` in
the state below logs every diagnostic the code produces, whether it goes
through `utils.print_error` / `utils.print_warning`, through a bare
`print(...)` (as in `NodeDef.connect_script` and `SceneDef._parse_file`),
or through the parity checker. -/

inductive Diag
  | depthMismatch
  | urlNoClose
  | urlMisformatted
  | emptyCrossRef
  | badRefFormat
  | unresMethod
  | unresConstructor
  | unresOperator
  | unresMember
  | unresSignal
  | unresAnnot
  | unresThemeItem
  | unresConstant
  | unresTypeRef
  | unrecognizedOpen
  | unrecognizedClose
  | codeLooksClosing
  | parityHit
  | gdscriptOutside
  | csharpOutside
  | codeblockNoClose
  | codeblockIndent
  | unresType
  | unresEnum
  | enumNotBitfield
  | unsupportedOperator
  | internalScript
  | nodeMissingScript
  | nodeUndocScript
  | noClassNameFound
  | undocClass
  | resourceMissing
  | failedBatch (n : Nat)
  | couldNotParse (p : Str)
  deriving DecidableEq, Repr

/-- A value parsed from a `.tscn` attribute: Python keeps quoted values
as `str` and bare digit runs as `int` (`parse_for_value`,
`tscn_to_dict`). -/
inductive TVal
  | s (v : Str)
  | i (n : Nat)
  deriving DecidableEq, Repr

/-- Python's f-string rendering of a `TVal`. -/
def TVal.render : TVal → Str
  | .s v => v
  | .i n => natToStr n

/-! ## Symbol table -/

structure EnumDoc where
  values : List Str
  isBitfield : Bool
  deriving DecidableEq, Repr

/-- A per-class document of the symbol table (the `ScriptDef` objects
stored in `State.classes` / `State.scripts`; `scriptdef.py` is not under
`src/`, but every field used by the code under `src/` is listed here:
member-name sets for the cross-reference checks of
`rst_generation.format_text_block` and the signal-name set used by
`SceneDef.connect_scripts`). -/
structure ClassDoc where
  methods : List Str := []
  constructors : List Str := []
  operators : List Str := []
  properties : List Str := []
  signals : List Str := []
  annots : List Str := []
  themeItems : List (Str × Str) := []  -- name ↦ data_name
  constants : List Str := []
  enums : List (Str × EnumDoc) := []
  deriving DecidableEq, Repr

/-! ## Association lists standing in for Python dicts -/

/-- `m[k]` lookup (first binding wins; our updates keep keys unique). -/
def aGet {κ α : Type} [DecidableEq κ] (m : List (κ × α)) (k : κ) : Option α :=
  match m with
  | [] => none
  | (k', v) :: rest => if k' = k then some v else aGet rest k

/-- `m[k] = v` assignment: overwrite the existing binding or append. -/
def aSet {κ α : Type} [DecidableEq κ] (m : List (κ × α)) (k : κ) (v : α) : List (κ × α) :=
  match m with
  | [] => [(k, v)]
  | (k', v') :: rest => if k' = k then (k, v) :: rest else (k', v') :: aSet rest k v

/-- `m.pop(k)`: the removed value and the remaining dict. -/
def aPop {κ α : Type} [DecidableEq κ] (m : List (κ × α)) (k : κ) :
    Option (α × List (κ × α)) :=
  match m with
  | [] => none
  | (k', v') :: rest =>
    if k' = k then some (v', rest)
    else match aPop rest k with
      | some (v, rest') => some (v, (k', v') :: rest')
      | none => none

/-- `k in m` membership. -/
def aMem {κ α : Type} [DecidableEq κ] (m : List (κ × α)) (k : κ) : Bool :=
  (aGet m k).isSome

/-- The keys of a dict. -/
def aKeys {κ α : Type} (m : List (κ × α)) : List κ :=
  m.map Prod.fst

/-! ## Scene data (arena-allocated, mirroring Python object aliasing) -/

/-- A `NodeDef`.  `children` and `resources` hold arena indices so that
the aliasing of Python object references (a node reachable both from
`node_map` and from a parent's `children` list, subtrees shared between
scenes by instancing) is preserved exactly.  `TypeName` objects are kept
by value as the node's type-name string; none of the claims settled here
depends on `TypeName` aliasing. -/
structure NodeData where
  name : Str := []
  defName : Str := lit "node"
  children : List Nat := []
  scriptPath : Option TVal := none
  script : Option ClassDoc := none
  typeName : Option Str := none
  resources : List Nat := []
  deprecated : Option Str := none
  experimental : Option Str := none
  deriving DecidableEq, Repr

/-- A `ResourceDef`.  `subRes` holds resource-arena indices; `sceneKey`
models the `scene` attribute as the registry key of the `SceneDef` it was
connected to (`none` = Python `None`). -/
structure ResourceData where
  path : Option TVal := none
  typeName : Str := []
  subRes : List Nat := []
  isExternal : Bool := false
  sceneKey : Option Str := none
  deriving DecidableEq, Repr

/-- A `ConnectionDef`. `signal` is the resolved signal's name
(`none` until the binder fills it). -/
structure ConnData where
  emitters : List Nat := []
  receivers : List (Nat × TVal) := []
  signal : Option Str := none
  deriving DecidableEq, Repr

/-- A `SceneDef` as stored in the Scene Registry.  `rootId` is `none`
when `_parse_file` returned before assigning `self.root` (Python then
simply lacks the attribute).  Signal keys are the raw parsed values. -/
structure SceneVal where
  rootId : Option Nat := none
  sceneName : Str := []
  signals : List (TVal × ConnData) := []
  deriving DecidableEq, Repr

/-! ## The shared `State` object -/

/-- The shared `State` (state.py), restricted to the fields the embedded
code reads or writes.  `errSink` / `warnSink` model whether
`state.error` / `state.warning` is a live routing target (`false` =
`None`, the "discard" configuration).  `emitted` is the log of diagnostic
emissions.  `nativeClasses` models the constant list
`godot_classes.GODOT_NATIVE_CLASSES`, whose module is not under `src/`. -/
structure St where
  numErrors : Nat := 0
  numWarnings : Nat := 0
  errSink : Bool := true
  warnSink : Bool := true
  emitted : List Diag := []
  classes : List (Str × ClassDoc) := []
  curClass : Str := []
  nativeClasses : List Str := []
  scriptDocs : List (Str × ClassDoc) := []
  scenes : List (Str × SceneVal) := []
  nodeArena : List NodeData := []
  resArena : List ResourceData := []
  projPath : Str := []
  deriving DecidableEq, Repr

/-- `utils.print_error`: when the error routing target is `None` the
function returns before printing or incrementing anything
(utils.py:35-36); otherwise it prints and increments `num_errors`. -/
def printError (d : Diag) (st : St) : St :=
  if st.errSink = false then st
  else { st with emitted := st.emitted ++ [d], numErrors := st.numErrors + 1 }

/-- `utils.print_warning` (utils.py:64-73), same shape for warnings. -/
def printWarning (d : Diag) (st : St) : St :=
  if st.warnSink = false then st
  else { st with emitted := st.emitted ++ [d], numWarnings := st.numWarnings + 1 }

/-- A bare Python `print(...)` of a diagnostic message (as used in
`NodeDef.connect_script` and `SceneDef._parse_file`): the message is
always produced and no counter is touched by the print itself. -/
def printPlain (d : Diag) (st : St) : St :=
  { st with emitted := st.emitted ++ [d] }

/-- Modelled from the spec: `state.script_language_parity_check.add_hit`
(rst_generation.py:229,269).  The parity-check object is attached by
repository code that is not under `src/` (state.py does not construct
it); per the spec a codeblock-parity issue is a recorded, counted
diagnostic, modelled here as a warning-side hit. -/
def addHit (st : St) : St :=
  { st with emitted := st.emitted ++ [Diag.parityHit],
            numWarnings := st.numWarnings + 1 }

/-! ## Markup transpiler (rst_generation.py) -/

/-- `MARKUP_ALLOWED_PRECEDENT` (rst_generation.py:8). -/
def markupAllowedPrecedent : Str := lit " -:/'\"<([\x7b"

/-- `MARKUP_ALLOWED_SUBSEQUENT` (rst_generation.py:9). -/
def markupAllowedSubsequent : Str := lit " -.,:;!?\\/'\")]\x7d>"

/-- `RESERVED_CODEBLOCK_TAGS`. -/
def reservedCodeblockTags : List Str := [lit "codeblock", lit "gdscript", lit "csharp"]

/-- `RESERVED_CROSSLINK_TAGS`. -/
def reservedCrosslinkTags : List Str :=
  [lit "method", lit "constructor", lit "operator", lit "member", lit "signal",
   lit "constant", lit "enum", lit "annotation", lit "theme_item", lit "param"]

/-- A `TagState` (rst_generation.py:29). -/
structure TagState where
  raw : Str
  name : Str
  arguments : List Str
  closing : Bool
  deriving DecidableEq, Repr

/-- `is_in_tagset` (rst_generation.py:38-53). -/
def isInTagset (tagText : Str) (tagset : List Str) : Bool :=
  tagset.any fun tag =>
    tagText = tag || pyStarts tagText (tag ++ lit " ") || pyStarts tagText (tag ++ lit "=")

/-- `get_tag_and_args` (rst_generation.py:56-78). -/
def getTagAndArgs (tagText : Str) : TagState :=
  let assignPos := pyFind tagText (lit "=") 0
  let (tagName, arguments) :=
    if assignPos ≥ 0 then
      (pyTake tagText assignPos, [pyStrip (pyDrop tagText (assignPos + 1))])
    else
      let spacePos := pyFind tagText (lit " ") 0
      if spacePos ≥ 0 then
        (pyTake tagText spacePos, [pyStrip (pyDrop tagText (spacePos + 1))])
      else (tagText, [])
  if pyStarts tagName (lit "/") then
    { raw := tagText, name := tagName.drop 1, arguments := arguments, closing := true }
  else
    { raw := tagText, name := tagName, arguments := arguments, closing := false }

/-- `str.split(sep)` for a one-character separator. -/
def pySplit (t : Str) (sep : Char) : List Str :=
  match t with
  | [] => [[]]
  | c :: rest =>
    match pySplit rest sep with
    | [] => [[]]
    | piece :: pieces => if c = sep then [] :: piece :: pieces else (c :: piece) :: pieces

/-- `parse_link_target` (rst_generation.py:81-106). -/
def parseLinkTarget (linkTarget : Str) (st : St) : List Str :=
  if pyFind linkTarget (lit ".") 0 ≠ -1 then pySplit linkTarget '.'
  else [st.curClass, linkTarget]

/-- `str.lower()` on ASCII. -/
def pyLower (t : Str) : Str := t.map Char.toLower

/-- `make_type` (rst_generation.py:761-787). -/
def makeType (klass : Str) (st : St) : St × Str :=
  if pyFind klass (lit "*") 0 ≠ -1 then (st, lit "``" ++ klass ++ lit "``")
  else
    let isArray := pyEnds klass (lit "[]")
    let linkType := if isArray then pyTake klass (-2) else klass
    if aMem st.classes linkType then
      let typeRst := lit ":ref:`" ++ linkType ++ lit "<class_" ++ linkType ++ lit ">`"
      (st, if isArray then lit ":ref:`Array<class_Array>`\\[" ++ typeRst ++ lit "\\]" else typeRst)
    else if st.nativeClasses.contains linkType then
      let typeRst := lit "`" ++ linkType ++
        lit " <https://docs.godotengine.org/en/stable/classes/class_" ++
        pyLower linkType ++ lit ".html>`_"
      (st, if isArray then
        lit "`Array <https://docs.godotengine.org/en/stable/classes/class_array.html>`_\\[" ++
          typeRst ++ lit "\\]"
       else typeRst)
    else
      let st := printError .unresType st
      let typeRst := lit "``" ++ linkType ++ lit "``"
      (st, if isArray then lit ":ref:`Array<class_Array>`\\[" ++ typeRst ++ lit "\\]" else typeRst)

/-- `make_enum` (rst_generation.py:790-817). -/
def makeEnum (t : Str) (isBitfield : Bool) (st : St) : St × Str :=
  let p := pyFind t (lit ".") 0
  let (c, e) :=
    if p ≥ 0 then
      let c0 := pySlice t 0 p
      let e0 := pyDrop t (p + 1)
      if c0 = lit "Variant" then (lit "@GlobalScope", lit "Variant." ++ e0) else (c0, e0)
    else
      let c0 := st.curClass
      match aGet st.classes c0 with
      | some cd => if ¬ aMem cd.enums t then (lit "@GlobalScope", t) else (c0, t)
      | none => (c0, t)
  match aGet st.classes c with
  | some cd =>
    match aGet cd.enums e with
    | some ed =>
      if isBitfield then
        let st := if ¬ ed.isBitfield then printError .enumNotBitfield st else st
        (st, lit "|bitfield|\\[:ref:`" ++ e ++ lit "<enum_" ++ c ++ lit "_" ++ e ++ lit ">`\\]")
      else
        (st, lit ":ref:`" ++ e ++ lit "<enum_" ++ c ++ lit "_" ++ e ++ lit ">`")
    | none =>
      let st := if c ++ lit "." ++ e ≠ lit "Vector3.Axis" then printError .unresEnum st else st
      (st, t)
  | none =>
    let st := if c ++ lit "." ++ e ≠ lit "Vector3.Axis" then printError .unresEnum st else st
    (st, t)

/-- The `GODOT_DOCS_PATTERN` regex `^\$DOCS_URL/(.*)\.html(#.*)?$`
(rst_generation.py:10): greedy `(.*)` picks the last occurrence of
`.html` whose tail is empty or starts with `#`.  Returns
`(middle, fragment?)` when it matches. -/
def docsUrlSplitAt (body : Str) (k : Nat) : Bool :=
  subAt body (lit ".html") k &&
    (body.length = k + 5 || (body.get? (k + 5)).any (· = '#'))

/-- The greatest `k ≤ n` at which `.html` splits `body` acceptably. -/
def docsUrlLast (body : Str) : Nat → Option Nat
  | 0 => if docsUrlSplitAt body 0 then some 0 else none
  | k + 1 => if docsUrlSplitAt body (k + 1) then some (k + 1) else docsUrlLast body k

def godotDocsMatch (url : Str) : Option (Str × Option Str) :=
  if pyStarts url (lit "$DOCS_URL/") then
    let body := url.drop 10
    match docsUrlLast body body.length with
    | some k =>
      let mid := body.take k
      let tail := body.drop (k + 5)
      some (mid, if tail = [] then none else some tail)
    | none => none
  else none

/-- `" ".join(xs)`. -/
def joinSpace (xs : List Str) : Str :=
  match xs with
  | [] => []
  | [x] => x
  | x :: rest => x ++ lit " " ++ joinSpace rest

/-- `escape_rst`'s backslash and asterisk loops (rst_generation.py:584-599):
find `ch` before `untilPos` (Python 3-argument `find`, so an `untilPos` of
`-1` excludes the final character), replace it by a backslash escape and
resume two characters later.  `none` models fuel exhaustion, which a fuel
of twice the length cannot reach. -/
def escSimple (ch : Char) (untilPos : Int) : Nat → Str → Int → Option Str
  | 0, _, _ => none
  | fuel + 1, text, pos =>
    let p := pyFind3 text [ch] pos (some untilPos)
    if p = -1 then some text
    else escSimple ch untilPos fuel (pyTake text p ++ ['\\', ch] ++ pyDrop text (p + 1)) (p + 2)

/-- `escape_rst`'s underscore loop (rst_generation.py:602-611): escape a
`_` only when the next character is not alphanumeric; `text[pos + 1]`
is a genuine Python indexing that the embedding surfaces as a potential
`IndexError`. -/
def escUnder (untilPos : Int) : Nat → Str → Int → Except Crash Str
  | 0, _, _ => .error .fuelOut
  | fuel + 1, text, pos =>
    let p := pyFind3 text (lit "_") pos (some untilPos)
    if p = -1 then .ok text
    else
      match pyGet text (p + 1) with
      | none => .error .indexError
      | some c =>
        if ¬ pyAlnum c then
          escUnder untilPos fuel (pyTake text p ++ lit "\\_" ++ pyDrop text (p + 1)) (p + 2)
        else escUnder untilPos fuel text (p + 1)

/-- `escape_rst` (rst_generation.py:582-613). -/
def escapeRst (text : Str) (untilPos : Int) : Except Crash Str :=
  match escSimple '\\' untilPos (2 * text.length + 4) text 0 with
  | none => .error .fuelOut
  | some t1 =>
    match escSimple '*' untilPos (2 * t1.length + 4) t1 0 with
    | none => .error .fuelOut
    | some t2 => escUnder untilPos (2 * t2.length + 4) t2 0

/-- Count the run of tabs in `t` starting at index `i` (the
`while pos + 1 < len(text) and text[pos + 1] == "\t"` loops). -/
def countTabsFrom (t : Str) (i : Nat) : Nat :=
  ((t.drop i).takeWhile (· = '\t')).length

/-- Result of `format_codeblock`: `missing` is Python's `None` return
(no closing tag), `done` the `(text, length)` pair. -/
inductive CbRes
  | missing
  | done (s : Str) (n : Nat)
  | fail (c : Crash)
  deriving DecidableEq, Repr

/-- The `Remove extraneous tabs` loop of `format_codeblock`
(rst_generation.py:633-654). -/
def fcRemoveTabs (indentLevel : Nat) : Nat → Str → Int → St → St × Option Str
  | 0, _, _, st => (st, none)
  | fuel + 1, code, cp, st =>
    let p := pyFind code (lit "\n") cp
    if p = -1 then (st, some code)
    else
      let ts := countTabsFrom code (p.toNat + 1)
      let st := if ts > indentLevel then printError .codeblockIndent st else st
      if (pyDrop code (p + (ts : Int) + 1)).length = 0 then
        fcRemoveTabs indentLevel fuel (pyTake code p ++ lit "\n") (p + 1) st
      else
        fcRemoveTabs indentLevel fuel
          (pyTake code p ++ lit "\n    " ++ pyDrop code (p + (ts : Int) + 1))
          (p + 5 - (ts : Int)) st

/-- `format_codeblock` (rst_generation.py:616-655). -/
def formatCodeblock (ts : TagState) (postText : Str) (indentLevel : Nat) (st : St) :
    St × CbRes :=
  let endPos := pyFind postText (lit "[/" ++ ts.name ++ lit "]") 0
  if endPos = -1 then (printError .codeblockNoClose st, .missing)
  else
    let opening := ts.name ++ (if ts.arguments ≠ [] then lit " " ++ joinSpace ts.arguments else [])
    let codeText := pySlice postText ((lit "[" ++ opening ++ lit "]").length : Nat) endPos
    let postText := pyDrop postText endPos
    match fcRemoveTabs indentLevel ((codeText.length + 8) * 8) codeText 0 st with
    | (st, none) => (st, .fail .fuelOut)
    | (st, some code) =>
      let head := lit "\n[" ++ opening ++ lit "]" ++ code
      (st, .done (head ++ postText) head.length)

/-- Result of the paragraph-normalisation stage of `format_text_block`. -/
inductive S1Res
  | proceed (t : Str)
  | earlyEmpty
  | fail (c : Crash)
  deriving DecidableEq, Repr

/-- `post_text[1:].split("]", 1)[0]`. -/
def takeUntilRb (t : Str) : Str :=
  t.takeWhile (· ≠ ']')

/-- Whether the content after a linebreak opens a codeblock-family tag
(rst_generation.py:125-132). -/
def opensCodeblock (postText : Str) : Bool :=
  pyStarts postText (lit "[codeblock]") || pyStarts postText (lit "[codeblock ") ||
  pyStarts postText (lit "[gdscript]") || pyStarts postText (lit "[gdscript ") ||
  pyStarts postText (lit "[csharp]") || pyStarts postText (lit "[csharp ")

/-- Paragraph normalisation, the first loop of `format_text_block`
(rst_generation.py:110-144): a linebreak plus tab indentation becomes a
paragraph break unless a codeblock-family tag follows, in which case the
codeblock extractor consumes it. -/
def stage1 : Nat → Str → Int → St → St × S1Res
  | 0, _, _, st => (st, .fail .fuelOut)
  | fuel + 1, text, pos, st =>
    let p := pyFind text (lit "\n") pos
    if p = -1 then (st, .proceed text)
    else
      let preText := pyTake text p
      let indent := countTabsFrom text (p.toNat + 1)
      let posT := p + (indent : Int)
      let postText := pyDrop text (posT + 1)
      if opensCodeblock postText then
        let tagText := takeUntilRb (postText.drop 1)
        let ts := getTagAndArgs tagText
        match formatCodeblock ts postText indent st with
        | (st, .missing) => (st, .earlyEmpty)
        | (st, .fail c) => (st, .fail c)
        | (st, .done r0 r1) =>
          stage1 fuel (preText ++ r0) (posT + ((r1 : Int) - (indent : Int))) st
      else
        stage1 fuel (preText ++ lit "\n\n" ++ postText) (p + 2) st

/-- The `[br]` space-stripping loop (rst_generation.py:470-471):
`while post_text[0] == " "` indexes the first character on every check,
so an empty remainder — a `[br]` at end-of-text — raises `IndexError`. -/
def brStrip : Str → Option Str
  | [] => none
  | c :: r => if c = ' ' then brStrip r else some (c :: r)

/-- The `*`-escaping loop over `post_text` (rst_generation.py:543-549).
`nextBrac` is the stale bound computed once before the loop. -/
def starLoop (nextBrac : Int) : Nat → Str → Int → Option Str
  | 0, _, _ => none
  | fuel + 1, post, iterPos =>
    let p := pyFind3 post (lit "*") iterPos (some nextBrac)
    if p = -1 then some post
    else starLoop nextBrac fuel (pyTake post p ++ lit "\\*" ++ pyDrop post (p + 1)) (p + 2)

/-- The `_`-escaping loop over `post_text` (rst_generation.py:551-560),
with the same genuine `post_text[iter_pos + 1]` indexing as
`escape_rst`. -/
def underLoop (nextBrac : Int) : Nat → Str → Int → Except Crash Str
  | 0, _, _ => .error .fuelOut
  | fuel + 1, post, iterPos =>
    let p := pyFind3 post (lit "_") iterPos (some nextBrac)
    if p = -1 then .ok post
    else
      match pyGet post (p + 1) with
      | none => .error .indexError
      | some c =>
        if ¬ pyAlnum c then
          underLoop nextBrac fuel (pyTake post p ++ lit "\\_" ++ pyDrop post (p + 1)) (p + 2)
        else underLoop nextBrac fuel post (p + 1)

/-- The common reassembly tail of the tag-scan loop
(rst_generation.py:536-563): optional escaping around the substitution,
then `*` and `_` escaping of the remainder (skipped inside code), then
`text = pre_text + tag_text + post_text` and the new scan position. -/
def scanTail (pre tagText post : Str) (escPre escPost insideCode : Bool) :
    Except Crash (Str × Int) := Id.run do
  let mut pre := pre
  let mut post := post
  if escPre ∧ pre ≠ [] then
    match pre.getLast? with
    | some c => if ¬ markupAllowedPrecedent.contains c then pre := pre ++ lit "\\ "
    | none => pure ()
  if escPost ∧ post ≠ [] then
    match post.head? with
    | some c => if ¬ markupAllowedSubsequent.contains c then post := lit "\\ " ++ post
    | none => pure ()
  let nextBrac := pyFind post (lit "[") 0
  if ¬ insideCode then
    match starLoop nextBrac (2 * post.length + 4) post 0 with
    | none => return .error .fuelOut
    | some p' => post := p'
    match underLoop nextBrac (2 * post.length + 4) post 0 with
    | .error c => return .error c
    | .ok p' => post := p'
  return .ok (pre ++ tagText ++ post, ((pre.length + tagText.length : Nat) : Int))

/-- The linear scan of the `constant` cross-reference over its search
set (rst_generation.py:382-395): each matching entry overwrites the
target class name, and `found` records whether any constant or enum
value matched. -/
def constScan (tn : Str) : List (Str × ClassDoc) → Str → Bool → Str × Bool
  | [], tcn, found => (tcn, found)
  | p :: rest, tcn, found =>
    if p.2.constants.contains tn then constScan tn rest p.1 true
    else if p.2.enums.any (fun q => q.2.values.contains tn) then constScan tn rest p.1 true
    else constScan tn rest tcn found

/-- The `:ref:` substitution built at the end of the member-style
cross-reference branches (rst_generation.py:421-425): the link label
carries the class prefix exactly when the target class is not the
class under transpilation. -/
def hcTag (tcn tn refType : Str) (st : St) : Str :=
  let repl := if tcn ≠ st.curClass then tcn ++ lit "." ++ tn else tn
  lit ":ref:`" ++ repl ++ lit "<class_" ++ tcn ++ refType ++ lit "_" ++ tn ++ lit ">`"

/-- The shared tail of the member-style cross-reference branches
(rst_generation.py:311-404): report the unresolved reference unless the
member was found, then build the `:ref:` substitution. -/
def hcCase (found : Bool) (d : Diag) (tcn tn refType : Str) (st : St) :
    St × Except Crash (Str × Bool × Bool) :=
  let st := if ¬ found then printError d st else st
  (st, .ok (hcTag tcn tn refType st, true, true))

/-- The `constant` cross-reference search (rst_generation.py:367-396):
an unqualified target is also looked up in `@GlobalScope` (a missing
`@GlobalScope` class entry is a dict-indexing `KeyError`). -/
def hcConstant (linkTarget tcn tn : Str) (classDef : ClassDoc) (st : St) :
    St × Except Crash (Str × Bool × Bool) :=
  if pyFind linkTarget (lit ".") 0 = -1 then
    match aGet st.classes (lit "@GlobalScope") with
    | none => (st, .error .keyError)
    | some g =>
      let r := constScan tn [(tcn, classDef), (lit "@GlobalScope", g)] tcn false
      hcCase r.2 .unresConstant r.1 tn (lit "_constant") st
  else
    let r := constScan tn [(tcn, classDef)] tcn false
    hcCase r.2 .unresConstant r.1 tn (lit "_constant") st

/-- The member-style cross-reference resolution for a parsed target
`class.name` (rst_generation.py:305-404): an over-qualified target is
reported, then the member is checked against the symbol table of its
kind and the `:ref:` substitution is built. -/
def hcTarget (ts : TagState) (linkTarget tcn tn : Str) (rest : List Str) (st : St) :
    St × Except Crash (Str × Bool × Bool) :=
  let st := if rest ≠ [] then printError .badRefFormat st else st
  match aGet st.classes tcn with
  | some classDef =>
    if ts.name = lit "method" then
      hcCase (classDef.methods.contains tn) .unresMethod tcn tn
        (if pyStarts tn (lit "_") then lit "_private_method" else lit "_" ++ ts.name) st
    else if ts.name = lit "constructor" then
      hcCase (classDef.constructors.contains tn) .unresConstructor tcn tn
        (lit "_" ++ ts.name) st
    else if ts.name = lit "operator" then
      hcCase (classDef.operators.contains tn) .unresOperator tcn tn (lit "_" ++ ts.name) st
    else if ts.name = lit "member" then
      hcCase (classDef.properties.contains tn) .unresMember tcn tn (lit "_property") st
    else if ts.name = lit "signal" then
      hcCase (classDef.signals.contains tn) .unresSignal tcn tn (lit "_" ++ ts.name) st
    else if ts.name = lit "annotation" then
      hcCase (classDef.annots.contains tn) .unresAnnot tcn tn (lit "_" ++ ts.name) st
    else if ts.name = lit "theme_item" then
      match aGet classDef.themeItems tn with
      | none => hcCase false .unresThemeItem tcn tn (lit "_" ++ ts.name) st
      | some dataName => hcCase true .unresThemeItem tcn tn (lit "_theme_" ++ dataName) st
    else if ts.name = lit "constant" then
      hcConstant linkTarget tcn tn classDef st
    else
      hcCase true .unresMethod tcn tn (lit "_" ++ ts.name) st
  | none =>
    let st := printError .unresTypeRef st
    (st, .ok (hcTag tcn tn (lit "_" ++ ts.name) st, true, true))

/-- The cross-reference dispatch of `format_text_block`
(rst_generation.py:292-429), given the raw tag text and its parsed
`TagState`; returns the substitution text and the two escape flags.
A fall-through (a crosslink-tagset hit whose parsed name matches no
case) keeps the raw tag text with no escaping, as in the source. -/
def handleCrosslink (tag : Str) (ts : TagState) (st : St) :
    St × Except Crash (Str × Bool × Bool) :=
  let linkTarget := ts.arguments.headD []
  if linkTarget = [] then
    (printError .emptyCrossRef st, .ok ([], false, false))
  else if ts.name = lit "method" ∨ ts.name = lit "constructor" ∨ ts.name = lit "operator" ∨
      ts.name = lit "member" ∨ ts.name = lit "signal" ∨ ts.name = lit "annotation" ∨
      ts.name = lit "theme_item" ∨ ts.name = lit "constant" then
    match parseLinkTarget linkTarget st with
    | tcn :: tn :: rest => hcTarget ts linkTarget tcn tn rest st
    | _ => (st, .error .valueError)
  else if ts.name = lit "enum" then
    let r := makeEnum linkTarget false st
    (r.1, .ok (r.2, true, true))
  else if ts.name = lit "param" then
    (st, .ok (lit "``" ++ linkTarget ++ lit "``", true, true))
  else
    (st, .ok (tag, false, false))

/-- `make_link` (rst_generation.py:858-880). -/
def makeLink (url title : Str) : Str :=
  match godotDocsMatch url with
  | some (g0, some g1) =>
    if title ≠ [] then
      lit "`" ++ title ++ lit " <../" ++ g0 ++ lit ".html" ++ g1 ++ lit ">`__"
    else
      lit "`" ++ g1 ++ lit " <../" ++ g0 ++ lit ".html" ++ g1 ++ lit ">`__ in :doc:`../" ++ g0 ++ lit "`"
  | some (g0, none) =>
    if title ≠ [] then lit ":doc:`" ++ title ++ lit " <../" ++ g0 ++ lit ">`"
    else lit ":doc:`../" ++ g0 ++ lit "`"
  | none =>
    if title ≠ [] then lit "`" ++ title ++ lit " <" ++ url ++ lit ">`__"
    else lit "`" ++ url ++ lit " <" ++ url ++ lit ">`__"

/-- Result of the tag-scan loop: the final text and the final value of
the `tag_depth` counter, or an uncaught exception. -/
inductive ScanRes
  | done (t : Str) (depth : Int)
  | fail (c : Crash)
  deriving DecidableEq, Repr

/-- Outcome of one iteration of the tag-scan loop body before the
common reassembly: an early return (`halt`), the `[url]` branch's
direct `continue` with its own reassembly (`jump`), or the fall-through
into the `scan_tail` reassembly (`tail`); the trailing constructor
arguments carry the loop's mutable locals. -/
inductive FtbBr
  | halt (st : St) (r : ScanRes)
  | jump (text : Str) (pos : Int) (ic : Bool) (ict : Str) (ictabs icw hg hc : Bool)
      (td : Int) (st : St)
  | tail (pre tagText post : Str) (ep epost ic : Bool) (ict : Str)
      (ictabs icw hg hc : Bool) (td : Int) (st : St)
  deriving DecidableEq, Repr

/-- The `inside_code` arm of the tag-scan loop
(rst_generation.py:166-200): only the matching closing tag leaves code
mode; any other tag is kept verbatim, with a warning when it merely
looks like a closing tag. -/
def ftbInsideCode (tag preText postText : Str) (ts : TagState) (ict : Str)
    (ictabs icw hg hc : Bool) (td : Int) (st : St) : FtbBr :=
  if ts.closing ∧ ts.name = ict then
    if isInTagset ts.name reservedCodeblockTags then
      match pyGet preText (-1) with
      | none => .halt st (.fail .indexError)
      | some c =>
        let preText := if c = '\n' then pyTake preText (-1) else preText
        .tail preText [] postText false false false ict ictabs false hg hc (td - 1) st
    else if isInTagset ts.name [lit "code"] then
      .tail preText (lit "``") postText false true false ict ictabs false hg hc (td - 1) st
    else
      .tail preText tag postText false false true ict ictabs icw hg hc td st
  else
    let st := if ¬ icw ∧ ts.closing then printWarning .codeLooksClosing st else st
    .tail preText (lit "[" ++ tag ++ lit "]") postText false false true ict ictabs icw hg hc td st

/-- The codeblock-family opening tags (rst_generation.py:210-241):
`gdscript` and `csharp` must appear inside `[codeblocks]` tabs, any
other reserved codeblock tag is a parity-check hit. -/
def ftbCodeblockTag (preText postText : Str) (ts : TagState)
    (ictabs : Bool) (hg hc : Bool) (td : Int) (st : St) : FtbBr :=
  if ts.name = lit "gdscript" then
    if ¬ ictabs then
      .tail preText (lit "\n .. code-tab:: gdscript\n") postText false false true
        ts.name ictabs (ts.arguments.contains (lit "skip-lint")) hg hc (td + 1)
        (printError .gdscriptOutside st)
    else
      .tail preText (lit "\n .. code-tab:: gdscript\n") postText false false true
        ts.name ictabs (ts.arguments.contains (lit "skip-lint")) true hc (td + 1) st
  else if ts.name = lit "csharp" then
    if ¬ ictabs then
      .tail preText (lit "\n .. code-tab:: csharp\n") postText false false true
        ts.name ictabs (ts.arguments.contains (lit "skip-lint")) hg hc (td + 1)
        (printError .csharpOutside st)
    else
      .tail preText (lit "\n .. code-tab:: csharp\n") postText false false true
        ts.name ictabs (ts.arguments.contains (lit "skip-lint")) hg true (td + 1) st
  else
    .tail preText (lit "\n::\n") postText false false true
      ts.name ictabs (ts.arguments.contains (lit "skip-lint")) hg hc (td + 1) (addHit st)

/-- The `[url]` arm (rst_generation.py:430-466): a missing closing tag
ends the whole scan; otherwise the link is reassembled inline and the
loop continues directly, skipping the common `scan_tail`. -/
def ftbUrl (text : Str) (pos0 endq : Int) (preText postText tag : Str) (ts : TagState)
    (ic : Bool) (ict : Str) (ictabs icw hg hc : Bool) (td : Int) (st : St) : FtbBr :=
  let urlTarget := ts.arguments.headD []
  if urlTarget = [] then
    .tail preText tag postText false false ic ict ictabs icw hg hc td
      (printError .urlMisformatted st)
  else
    let endurlPos := pyFind text (lit "[/url]") (endq + 1)
    if endurlPos = -1 then
      .halt (printError .urlNoClose st) (.done text td)
    else
      let linkTitle := pySlice text (endq + 1) endurlPos
      let tagText := makeLink urlTarget linkTitle
      let pre0 := pyTake text pos0
      let pre :=
        match pre0.getLast? with
        | some c => if ¬ markupAllowedPrecedent.contains c then pre0 ++ lit "\\ " else pre0
        | none => pre0
      let post0 := pyDrop text (endurlPos + 6)
      let post :=
        match post0.head? with
        | some c => if ¬ markupAllowedSubsequent.contains c then lit "\\ " ++ post0 else post0
        | none => post0
      .jump (pre ++ tagText ++ post) ((pre.length + tagText.length : Nat) : Int)
        ic ict ictabs icw hg hc td st

/-- The simple formatting tags and the unrecognized-tag fallback
(rst_generation.py:467-535). -/
def ftbSimpleTag (preText postText tag : Str) (ts : TagState) (ic : Bool) (ict : Str)
    (ictabs icw hg hc : Bool) (td : Int) (st : St) : FtbBr :=
  if ts.name = lit "br" then
    match brStrip postText with
    | none => .halt st (.fail .indexError)
    | some p' =>
      .tail preText (lit "\n\n") p' false false ic ict ictabs icw hg hc td st
  else if ts.name = lit "center" then
    .tail preText [] postText false false ic ict ictabs icw hg hc
      (if ts.closing then td - 1 else td + 1) st
  else if ts.name = lit "i" then
    if ts.closing then
      .tail preText (lit "*") postText false true ic ict ictabs icw hg hc (td - 1) st
    else
      .tail preText (lit "*") postText true false ic ict ictabs icw hg hc (td + 1) st
  else if ts.name = lit "b" then
    if ts.closing then
      .tail preText (lit "**") postText false true ic ict ictabs icw hg hc (td - 1) st
    else
      .tail preText (lit "**") postText true false ic ict ictabs icw hg hc (td + 1) st
  else if ts.name = lit "u" then
    if ts.closing then
      .tail preText [] postText false true ic ict ictabs icw hg hc (td - 1) st
    else
      .tail preText [] postText true false ic ict ictabs icw hg hc (td + 1) st
  else if ts.name = lit "kbd" then
    if ts.closing then
      .tail preText (lit "`") postText false true ic ict ictabs icw hg hc (td - 1) st
    else
      .tail preText (lit ":kbd:" ++ lit "`") postText true false ic ict ictabs icw hg hc (td + 1) st
  else
    if ts.closing then
      .tail preText (lit "[" ++ tag ++ lit "]") postText false false ic ict ictabs icw hg hc td
        (printError .unrecognizedClose st)
    else
      .tail preText (lit "``" ++ tag ++ lit "``") postText true true ic ict ictabs icw hg hc td
        (printError .unrecognizedOpen st)

/-- One iteration of the tag-scan loop body of `format_text_block`
(rst_generation.py:161-560), from the tag extraction down to just
before the common reassembly. -/
def ftbBranch (text : Str) (pos0 endq : Int) (insideCode : Bool) (insideCodeTag : Str)
    (insideCodeTabs ignoreCW hasGd hasCs : Bool) (tagDepth : Int) (st : St) : FtbBr :=
  let preText := pyTake text pos0
  let postText := pyDrop text (endq + 1)
  let tag := pySlice text (pos0 + 1) endq
  if aMem st.classes tag ∧ ¬ insideCode then
    if tag = st.curClass then
      .tail preText (lit "**" ++ tag ++ lit "**") postText true true insideCode
        insideCodeTag insideCodeTabs ignoreCW hasGd hasCs tagDepth st
    else
      let r := makeType tag st
      .tail preText r.2 postText true true insideCode
        insideCodeTag insideCodeTabs ignoreCW hasGd hasCs tagDepth r.1
  else
    let ts := getTagAndArgs tag
    if insideCode then
      ftbInsideCode tag preText postText ts insideCodeTag insideCodeTabs ignoreCW
        hasGd hasCs tagDepth st
    else if ts.name = lit "codeblocks" then
      if ts.closing then
        let st := if ¬ hasGd ∨ ¬ hasCs then addHit st else st
        .tail preText [] postText false false insideCode insideCodeTag false
          ignoreCW false false (tagDepth - 1) st
      else
        .tail preText (lit "\n.. tabs::") postText false false insideCode insideCodeTag
          true ignoreCW hasGd hasCs (tagDepth + 1) st
    else if isInTagset ts.name reservedCodeblockTags then
      ftbCodeblockTag preText postText ts insideCodeTabs hasGd hasCs tagDepth st
    else if isInTagset ts.name [lit "code"] then
      .tail preText (lit "``") postText true false true (lit "code") insideCodeTabs
        (ts.arguments.contains (lit "skip-lint")) hasGd hasCs (tagDepth + 1) st
    else if isInTagset ts.name reservedCrosslinkTags then
      match handleCrosslink tag ts st with
      | (st', .error c) => .halt st' (.fail c)
      | (st', .ok (t', ep, epost)) =>
        .tail preText t' postText ep epost insideCode insideCodeTag insideCodeTabs
          ignoreCW hasGd hasCs tagDepth st'
    else if isInTagset ts.name [lit "url"] then
      ftbUrl text pos0 endq preText postText tag ts insideCode insideCodeTag
        insideCodeTabs ignoreCW hasGd hasCs tagDepth st
    else
      ftbSimpleTag preText postText tag ts insideCode insideCodeTag insideCodeTabs
        ignoreCW hasGd hasCs tagDepth st

/-- The tag-scan loop of `format_text_block` (rst_generation.py:161-563),
one recursive step per iteration of `while True`.  Arguments after the
fuel mirror the loop's mutable locals: `text`, `pos`, `inside_code`,
`inside_code_tag`, `inside_code_tabs`, `ignore_code_warnings`,
`has_codeblocks_gdscript`, `has_codeblocks_csharp`, `tag_depth`. -/
def ftbScan : Nat → Str → Int → Bool → Str → Bool → Bool → Bool → Bool → Int → St →
    St × ScanRes
  | 0, _, _, _, _, _, _, _, _, _, st => (st, .fail .fuelOut)
  | fuel + 1, text, pos, insideCode, insideCodeTag, insideCodeTabs, ignoreCW,
      hasGd, hasCs, tagDepth, st =>
    let pos0 := pyFind text (lit "[") pos
    if pos0 = -1 then (st, .done text tagDepth)
    else
      let endq := pyFind text (lit "]") (pos0 + 1)
      if endq = -1 then (st, .done text tagDepth)
      else
        match ftbBranch text pos0 endq insideCode insideCodeTag insideCodeTabs ignoreCW
            hasGd hasCs tagDepth st with
        | .halt st' r => (st', r)
        | .jump text' pos' ic ict ictabs icw hg hc td st' =>
          ftbScan fuel text' pos' ic ict ictabs icw hg hc td st'
        | .tail pre tagText post ep epost ic ict ictabs icw hg hc td st' =>
          match scanTail pre tagText post ep epost ic with
          | .error c => (st', .fail c)
          | .ok (text', pos') => ftbScan fuel text' pos' ic ict ictabs icw hg hc td st'

/-- Result of `format_text_block`: the transpiled text together with the
final `tag_depth` (reported as `0` on the early `return ""` of the
codeblock extractor, where the scan never runs), or an uncaught
exception. -/
inductive TRes
  | out (t : Str) (depth : Int)
  | fail (c : Crash)
  deriving DecidableEq, Repr

/-- Count the `[` occurrences of a text (fuel bound for the scan loop:
each iteration consumes at least one bracket at or after the scan
position). -/
def countChar (c : Char) (t : Str) : Nat :=
  (t.filter (· = c)).length

/-- `format_text_block` (rst_generation.py:109-571): paragraph
normalisation, literal escaping up to the first `[`, the tag scan, and
the final depth-mismatch report (emitted only for a positive
`tag_depth`, rst_generation.py:565). -/
def formatTextBlock (text : Str) (st : St) : St × TRes :=
  match stage1 (countChar '\n' text + 2) text 0 st with
  | (st, .fail c) => (st, .fail c)
  | (st, .earlyEmpty) => (st, .out [] 0)
  | (st, .proceed t1) =>
    let nextBracPos := pyFind t1 (lit "[") 0
    match escapeRst t1 nextBracPos with
    | .error c => (st, .fail c)
    | .ok t2 =>
      match ftbScan (countChar '[' t2 + 2) t2 0 false [] false false false false 0 st with
      | (st, .fail c) => (st, .fail c)
      | (st, .done t3 depth) =>
        let st := if depth > 0 then printError .depthMismatch st else st
        (st, .out t3 depth)

/-! ## Scene resolver (scenedef.py) -/

/-- The rest of a lazy `".+?"` match: scan for the closing quote
(`.` does not match a newline, so a newline aborts the candidate). -/
def qcGo : Str → Str → Option (Str × Str)
  | _, [] => none
  | acc, c :: rest =>
    if c = '"' then some (acc.reverse, rest)
    else if c = '\n' then none
    else qcGo (c :: acc) rest

/-- A lazy `".+?"` body: at least one character, then the first closing
quote, no newlines. `s` is the text after the opening quote; returns the
content and the remainder after the closing quote. -/
def quotedContent : Str → Option (Str × Str)
  | [] => none
  | c :: rest => if c = '\n' then none else qcGo [c] rest

/-- The rest of a lazy `".+?"\)` match: scan for a quote immediately
followed by a closing parenthesis. -/
def qcParen : Str → Str → Option (Str × Str)
  | acc, '"' :: ')' :: rest => some (acc.reverse, rest)
  | _, '\n' :: _ => none
  | _, [] => none
  | acc, c :: rest => qcParen (c :: acc) rest

/-- A lazy `".+?"\)` body (at least one character). -/
def quotedParen : Str → Option (Str × Str)
  | [] => none
  | c :: rest => if c = '\n' then none else qcParen [c] rest

/-- Digits to a natural number (Python `int` on a `\d+` match). -/
def digitsToNat (ds : Str) : Nat :=
  ds.foldl (fun acc c => acc * 10 + (c.toNat - 48)) 0

/-- `parse_for_value` (scenedef.py:18-27): search the line for
`' {key}=(".+?"|\d+)'` and return the quote-stripped string or the
integer; `none` is the `AttributeError` of `.group(1)` on a failed
search. -/
def pfvGo (t key : Str) : Nat → Nat → Option TVal
  | _, 0 => none
  | i, fuel + 1 =>
    let pat := ' ' :: (key ++ ['='])
    if subAt t pat i then
      let j := i + pat.length
      match t.get? j with
      | some '"' =>
        match quotedContent (t.drop (j + 1)) with
        | some (content, _) => some (TVal.s (stripQuotes (['"'] ++ content ++ ['"'])))
        | none => if i < t.length then pfvGo t key (i + 1) fuel else none
      | some c =>
        if c.isDigit then some (TVal.i (digitsToNat ((t.drop j).takeWhile Char.isDigit)))
        else if i < t.length then pfvGo t key (i + 1) fuel else none
      | none => if i < t.length then pfvGo t key (i + 1) fuel else none
    else if i < t.length then pfvGo t key (i + 1) fuel else none

/-- `parse_for_value`. -/
def parseForValue (line key : Str) : Option TVal :=
  pfvGo line key 0 (line.length + 2)

/-- One value of the `tscn_to_dict` regex alternation
`".+?"|\d+|ExtResource\(".+?"\)` at the current position; returns the raw
matched value text and the remainder. -/
def ttdValue (t : Str) : Option (Str × Str) :=
  match t with
  | '"' :: rest =>
    match quotedContent rest with
    | some (content, after) => some (lit "\"" ++ content ++ lit "\"", after)
    | none => none
  | c :: _ =>
    if c.isDigit then
      let ds := t.takeWhile Char.isDigit
      some (ds, t.drop ds.length)
    else if pyStarts t (lit "ExtResource(\"") then
      match quotedParen (t.drop 13) with
      | some (content, after) => some (lit "ExtResource(\"" ++ content ++ lit "\")", after)
      | none => none
    else none
  | [] => none

/-- The scan of `re.findall` for `(\w+)=(".+?"|\d+|ExtResource\(".+?"\))`
(scenedef.py:34): at each position try a maximal `\w+` run followed by
`=` and a value; on failure advance one character. -/
def ttdGo : Nat → Str → List (Str × Str)
  | 0, _ => []
  | _, [] => []
  | fuel + 1, t =>
    let w := t.takeWhile isWordChar
    let attempt : Option (Str × Str × Str) :=
      if w ≠ [] then
        match t.drop w.length with
        | '=' :: afterEq =>
          match ttdValue afterEq with
          | some (raw, rest) => some (w, raw, rest)
          | none => none
        | _ => none
      else none
    match attempt with
    | some (w, raw, rest) => (w, raw) :: ttdGo fuel rest
    | none => ttdGo fuel (t.drop 1)

/-- `tscn_to_dict` (scenedef.py:30-43). -/
def tscnToDict (line : Str) : List (Str × TVal) :=
  let pairs := ttdGo (line.length + 2) (pyStrip line)
  pairs.foldl
    (fun d p =>
      let v := if p.2.contains '"' then TVal.s (stripQuotes p.2) else TVal.i (digitsToNat p.2)
      aSet d p.1 v) []

/-- `match_extres.search(line)` capturing group 2 (scenedef.py:14):
`([^ ]+) = ExtResource\("(.+?)"\)`.  Looks for `' = ExtResource("'`
preceded by a non-space character, then a lazy body closed by `")`. -/
def extResGo (t : Str) : Nat → Nat → Option Str
  | _, 0 => none
  | p, fuel + 1 =>
    if p + 1 ≥ t.length then none
    else if subAt t (lit " = ExtResource(\"") p ∧ (t.get? (p - 1)).all (· ≠ ' ') ∧ 1 ≤ p then
      match quotedParen (t.drop (p + 16)) with
      | some (content, _) => some content
      | none => extResGo t (p + 1) fuel
    else extResGo t (p + 1) fuel

/-- `match_extres.search(...)` group 2, or `none` for no match. -/
def extResSearch (t : Str) : Option Str :=
  extResGo t 1 (t.length + 2)

/-- `match_subres.search(line)` capturing group 3 (scenedef.py:15):
`"?([^ ]+?)"?( =|:) SubResource\("(.+?)"\)`. -/
def subResGo (t : Str) : Nat → Nat → Option Str
  | _, 0 => none
  | p, fuel + 1 =>
    if p + 1 ≥ t.length then none
    else if subAt t (lit " = SubResource(\"") p ∧ (t.get? (p - 1)).all (· ≠ ' ') ∧ 1 ≤ p then
      match quotedParen (t.drop (p + 16)) with
      | some (content, _) => some content
      | none => subResGo t (p + 1) fuel
    else if subAt t (lit ": SubResource(\"") p ∧ (t.get? (p - 1)).all (· ≠ ' ') ∧ 1 ≤ p then
      match quotedParen (t.drop (p + 15)) with
      | some (content, _) => some content
      | none => subResGo t (p + 1) fuel
    else subResGo t (p + 1) fuel

/-- `match_subres.search(...)` group 3, or `none` for no match. -/
def subResSearch (t : Str) : Option Str :=
  subResGo t 1 (t.length + 2)

/-- An open scene file: the lines not yet consumed, each including its
trailing newline (except possibly the last).  `readline` at end-of-file
returns the empty (falsy) string, as in Python. -/
abbrev Fil := List Str

/-- Python's `file.readline()`. -/
def readline : Fil → Str × Fil
  | [] => ([], [])
  | l :: rest => (l, rest)

/-- Node-arena read (a Python object dereference). -/
def getN (st : St) (i : Nat) : NodeData :=
  st.nodeArena.getD i {}

/-- Node-arena write (a Python in-place object mutation). -/
def setN (st : St) (i : Nat) (n : NodeData) : St :=
  { st with nodeArena := st.nodeArena.set i n }

/-- Node-arena allocation (a Python object construction). -/
def pushN (st : St) (n : NodeData) : St × Nat :=
  ({ st with nodeArena := st.nodeArena ++ [n] }, st.nodeArena.length)

/-- Resource-arena read. -/
def getR (st : St) (i : Nat) : ResourceData :=
  st.resArena.getD i {}

/-- Resource-arena write. -/
def setR (st : St) (i : Nat) (r : ResourceData) : St :=
  { st with resArena := st.resArena.set i r }

/-- Resource-arena allocation. -/
def pushR (st : St) (r : ResourceData) : St × Nat :=
  ({ st with resArena := st.resArena ++ [r] }, st.resArena.length)

/-- `ResourceDef.from_tscn_data` (scenedef.py:549-565); the `KeyError`
of `info['type']` is surfaced. -/
def fromTscnData (line : Str) : Except Crash ResourceData :=
  let isExt := containsSub line (lit "ext_resource")
  let info := tscnToDict line
  let path := if isExt then aGet info (lit "path") else none
  match aGet info (lit "type") with
  | none => .error .keyError
  | some tv =>
    .ok { path := path, typeName := tv.render, subRes := [], isExternal := isExt,
          sceneKey := none }

/-- `NodeDef.copy` (scenedef.py:123-133): a fresh `NodeDef` (whose
`__init__` does not call `DefinitionBase.__init__`, so name and notices
are unset) with shallow copies of `children` and `resources` and the
same `type_name`, `script_path` and `script`. -/
def copyNode (st : St) (srcId : Nat) : St × Nat :=
  let src := getN st srcId
  pushN st { name := [], defName := lit "node", children := src.children,
             scriptPath := src.scriptPath, script := src.script,
             typeName := src.typeName, resources := src.resources,
             deprecated := none, experimental := none }

/-- Result of `NodeDef.from_tscn_file`: the returned line (`ret none` is
Python's `return None`), the `NodeExists` exception, or a crash. -/
inductive FtfRes
  | ret (l : Option Str)
  | nodeExists (path : Str)
  | fail (c : Crash)
  deriving DecidableEq, Repr

/-- Python truthiness of a parsed value. -/
def tvalTruthy : TVal → Bool
  | .s v => v ≠ []
  | .i n => n ≠ 0

/-- The depth-first re-path walk of the instancing branch
(scenedef.py:277-290): pop the last frontier entry, insert the node into
the flat map under its new path, push its children with recomputed
paths.  (The `if parent is None` guard is dead: frontier entries always
carry path strings.) -/
def dfsRepath (st : St) : Nat → List (Str × Nat) → List (Str × Nat) → Option (List (Str × Nat))
  | 0, _, _ => none
  | fuel + 1, frontier, nmap =>
    match frontier.getLast? with
    | none => some nmap
    | some (parentPath, nid) =>
      let nmap := aSet nmap parentPath nid
      let node := getN st nid
      let newEntries := node.children.map fun cid =>
        let cname := (getN st cid).name
        ((if parentPath = lit "." then cname else parentPath ++ lit "/" ++ cname), cid)
      dfsRepath st fuel (frontier.dropLast ++ newEntries) nmap

/-- The trailing-lines loop of `NodeDef.from_tscn_file`
(scenedef.py:292-310): read stripped lines until a blank one, attaching
a script resource id or an external/internal resource to the node.  The
`TypeError` of a failed `match_extres` subscript is caught (and warned
about) only in the `script` branch. -/
def trailingLoop (selfId : Nat) (ext sub : List (TVal × Nat)) :
    Nat → St → Fil → St × Fil × Option Crash
  | 0, st, fil => (st, fil, some .fuelOut)
  | fuel + 1, st, fil =>
    let (raw, fil) := readline fil
    let line := pyStrip raw
    if line = [] then (st, fil, none)
    else if containsSub line (lit "script") then
      match extResSearch line with
      | none =>
        trailingLoop selfId ext sub fuel (printWarning .internalScript st) fil
      | some mid =>
        match aGet ext (TVal.s mid) with
        | none => (st, fil, some .keyError)
        | some resId =>
          let st := setN st selfId { getN st selfId with scriptPath := (getR st resId).path }
          trailingLoop selfId ext sub fuel st fil
    else if containsSub line (lit "ExtResource") then
      match extResSearch line with
      | none => (st, fil, some .typeError)
      | some mid =>
        match aGet ext (TVal.s mid) with
        | none => (st, fil, some .keyError)
        | some resId =>
          let st := setN st selfId
            { getN st selfId with resources := (getN st selfId).resources ++ [resId] }
          trailingLoop selfId ext sub fuel st fil
    else if containsSub line (lit "SubResource") then
      match subResSearch line with
      | none => (st, fil, some .typeError)
      | some mid =>
        match aGet sub (TVal.s mid) with
        | none => (st, fil, some .keyError)
        | some resId =>
          let st := setN st selfId
            { getN st selfId with resources := (getN st selfId).resources ++ [resId] }
          trailingLoop selfId ext sub fuel st fil
    else trailingLoop selfId ext sub fuel st fil

/-- `NodeDef.from_tscn_file` (scenedef.py:193-311). -/
def fromTscnFile (fuel : Nat) (st : St) (selfId : Nat)
    (ext sub : List (TVal × Nat)) (nmap : List (Str × Nat)) (fil : Fil)
    (lineO : Option Str) : St × List (Str × Nat) × Fil × FtfRes := Id.run do
  let (line, fil) := match lineO with
    | none => readline fil
    | some l => (l, fil)
  if ¬ pyStarts line (lit "[node") then
    return (st, nmap, fil, .ret (some line))
  let info := tscnToDict line
  match aGet info (lit "name") with
  | none => return (st, nmap, fil, .fail .keyError)
  | some nameV =>
  let name := nameV.render
  let mut st := setN st selfId ({ getN st selfId with
    name := name, defName := lit "node",
    deprecated := none, experimental := none })
  let parentO := aGet info (lit "parent")
  let path := match parentO with
    | none => lit "."
    | some p => if p = TVal.s (lit ".") then name else p.render ++ lit "/" ++ name
  if aMem nmap path then
    return (st, nmap, fil, .nodeExists path)
  let mut nmap := aSet nmap path selfId
  match parentO with
  | some p =>
    match aGet nmap p.render with
    | none => return (st, nmap, fil, .fail .keyError)
    | some pid =>
      st := setN st pid { getN st pid with children := (getN st pid).children ++ [selfId] }
  | none => pure ()
  match aGet info (lit "type") with
  | some tv =>
    st := setN st selfId { getN st selfId with typeName := some tv.render }
  | none =>
    if aMem info (lit "instance") then
      st := setN st selfId { getN st selfId with defName := lit "scene" }
      let idS := ((aGet info (lit "instance")).getD (TVal.s [])).render
      let startQ := pyFind idS (lit "\"") 0 + 1
      let endQ := pyFind idS (lit "\"") startQ
      let rid := TVal.s (pySlice idS startQ endQ)
      match aGet ext rid with
      | none => return (st, nmap, fil, .fail .keyError)
      | some resId =>
        match (getR st resId).sceneKey with
        | none => return (st, nmap, fil, .fail .attrError)
        | some skey =>
          match aGet st.scenes skey with
          | none => return (st, nmap, fil, .fail .keyError)
          | some scene =>
            match scene.rootId with
            | none => return (st, nmap, fil, .fail .attrError)
            | some rootId =>
              let rootN := getN st rootId
              let selfN := getN st selfId
              st := setN st selfId ({ selfN with
                typeName := rootN.typeName, script := rootN.script,
                scriptPath := rootN.scriptPath, deprecated := rootN.deprecated,
                experimental := rootN.experimental,
                resources := selfN.resources ++ rootN.resources,
                children := selfN.children ++ rootN.children })
              match dfsRepath st fuel [(path, selfId)] nmap with
              | none => return (st, nmap, fil, .fail .fuelOut)
              | some nmap' => nmap := nmap'
  match trailingLoop selfId ext sub (fil.length + 2) st fil with
  | (st', fil', some c) => return (st', nmap, fil', .fail c)
  | (st', fil', none) => return (st', nmap, fil', .ret none)

/-- Exit status of a section loop of `SceneDef._parse_file`. -/
inductive PhaseOut
  | cont (line : Str)
  | notReady
  | earlyRet
  | fail (c : Crash)
  deriving DecidableEq, Repr

/-- The external-resource loop of `SceneDef._parse_file`
(scenedef.py:417-435): parse each `[ext_resource` line, register it by
id, and for a `PackedScene` resource require the referenced path to be
registered already — otherwise raise `ScenesNotParsed` (`notReady`).  A
`path` that is absent, or not a string, is `not in state.scenes` and
likewise defers. -/
def extLoop : Nat → St → Str → Fil → List (TVal × Nat) →
    St × List (TVal × Nat) × Fil × PhaseOut
  | 0, st, _, fil, ext => (st, ext, fil, .fail .fuelOut)
  | fuel + 1, st, line, fil, ext =>
    if line = [] then (st, ext, fil, .cont line)
    else if pyStarts line (lit "[ext_resource") then
      match fromTscnData line with
      | .error c => (st, ext, fil, .fail c)
      | .ok res =>
        match parseForValue line (lit "id") with
        | none => (st, ext, fil, .fail .attrError)
        | some idV =>
          let (st, resId) := pushR st res
          let ext := aSet ext idV resId
          if res.typeName = lit "PackedScene" then
            match res.path with
            | some (TVal.s p) =>
              if ¬ aMem st.scenes p then (st, ext, fil, .notReady)
              else
                let st := setR st resId { getR st resId with sceneKey := some p }
                let (line, fil) := readline fil
                extLoop fuel st line fil ext
            | _ => (st, ext, fil, .notReady)
          else
            let (line, fil) := readline fil
            extLoop fuel st line fil ext
    else if pyStarts line (lit "[") then (st, ext, fil, .cont line)
    else
      let (line, fil) := readline fil
      extLoop fuel st line fil ext

/-- The internal-resource loop of `SceneDef._parse_file`
(scenedef.py:437-464): register `[sub_resource` declarations, and append
embedded `ExtResource`/`SubResource` references to the current
resource's nested list; an unresolvable nested id prints an error (a
bare `print`, no counter) and returns from `_parse_file`. -/
def subLoop : Nat → St → Str → Fil → List (TVal × Nat) → List (TVal × Nat) → Option TVal →
    St × List (TVal × Nat) × Fil × PhaseOut
  | 0, st, _, fil, _, sub => fun _ => (st, sub, fil, .fail .fuelOut)
  | fuel + 1, st, line, fil, ext, sub => fun current =>
    if line = [] then (st, sub, fil, .cont line)
    else if pyStarts line (lit "[sub_resource") then
      match fromTscnData line with
      | .error c => (st, sub, fil, .fail c)
      | .ok res =>
        match parseForValue line (lit "id") with
        | none => (st, sub, fil, .fail .attrError)
        | some idV =>
          let (st, resId) := pushR st res
          let sub := aSet sub idV resId
          let (line, fil) := readline fil
          subLoop fuel st line fil ext sub (some idV)
    else if pyStarts line (lit "[") then (st, sub, fil, .cont line)
    else if (current.map tvalTruthy).getD false ∧ containsSub line (lit "ExtResource") then
      match extResSearch (pyStrip line) with
      | none => (st, sub, fil, .fail .typeError)
      | some mid =>
        match aGet ext (TVal.s mid) with
        | some resId =>
          match current.bind (fun c => aGet sub c) with
          | none => (st, sub, fil, .fail .keyError)
          | some sid =>
            let st := setR st sid { getR st sid with subRes := (getR st sid).subRes ++ [resId] }
            let (line, fil) := readline fil
            subLoop fuel st line fil ext sub current
        | none =>
          ((printPlain .resourceMissing st), sub, fil, .earlyRet)
    else if (current.map tvalTruthy).getD false ∧ containsSub line (lit "SubResource") then
      match subResSearch (pyStrip line) with
      | none => (st, sub, fil, .fail .typeError)
      | some mid =>
        match aGet sub (TVal.s mid) with
        | some resId =>
          match current.bind (fun c => aGet sub c) with
          | none => (st, sub, fil, .fail .keyError)
          | some sid =>
            let st := setR st sid { getR st sid with subRes := (getR st sid).subRes ++ [resId] }
            let (line, fil) := readline fil
            subLoop fuel st line fil ext sub current
        | none =>
          ((printPlain .resourceMissing st), sub, fil, .earlyRet)
    else
      let (line, fil) := readline fil
      subLoop fuel st line fil ext sub current

/-- One `node = NodeDef(state); node.from_tscn_file(...)` step with the
`NodeExists` handler of `SceneDef._parse_file` (scenedef.py:470-480 and
485-495): on `NodeExists(path)` pop the prior record, structurally copy
it, and re-parse the same line into the copy.  Returns the node that
ends up parsed. -/
def nodeStep (fuel : Nat) (st : St) (ext sub : List (TVal × Nat))
    (nmap : List (Str × Nat)) (fil : Fil) (lineO : Option Str) :
    St × List (Str × Nat) × Fil × (Except Crash (Nat × Option Str)) :=
  let (st, nid) := pushN st {}
  match fromTscnFile fuel st nid ext sub nmap fil lineO with
  | (st, nmap, fil, .ret l) => (st, nmap, fil, .ok (nid, l))
  | (st, nmap, fil, .fail c) => (st, nmap, fil, .error c)
  | (st, nmap, fil, .nodeExists p) =>
    match aPop nmap p with
    | none => (st, nmap, fil, .error .keyError)
    | some (oldId, nmap) =>
      let (st, cpId) := copyNode st oldId
      match fromTscnFile fuel st cpId ext sub nmap fil lineO with
      | (st, nmap, fil, .ret l) => (st, nmap, fil, .ok (cpId, l))
      | (st, nmap, fil, .fail c) => (st, nmap, fil, .error c)
      | (st, nmap, fil, .nodeExists _) => (st, nmap, fil, .error .valueError)

/-- The `Gets the other nodes` loop (scenedef.py:484-497): repeat
`nodeStep` until `from_tscn_file` hands back a line. -/
def nodesLoop : Nat → St → List (TVal × Nat) → List (TVal × Nat) →
    List (Str × Nat) → Fil → Option Str →
    St × List (Str × Nat) × Fil × (Except Crash Str)
  | 0, st, _, _, nmap, fil, _ => (st, nmap, fil, .error .fuelOut)
  | fuel + 1, st, ext, sub, nmap, fil, lineO =>
    match nodeStep (fuel + 1) st ext sub nmap fil lineO with
    | (st, nmap, fil, .error c) => (st, nmap, fil, .error c)
    | (st, nmap, fil, .ok (_, some l)) => (st, nmap, fil, .ok l)
    | (st, nmap, fil, .ok (_, none)) => nodesLoop fuel st ext sub nmap fil none

/-- Look a parsed endpoint value up in the node map
(`nodes.get(signal_info['from'])`): dict keys are path strings, so a
non-string value misses. -/
def nmapGet (nmap : List (Str × Nat)) : TVal → Option Nat
  | .s v => aGet nmap v
  | .i _ => none

/-- The connection loop of `SceneDef._parse_file` (scenedef.py:498-518). -/
def connLoop : Nat → St → List (TVal × ConnData) → List (Str × Nat) → Str → Fil →
    St × List (TVal × ConnData) × Option Crash
  | 0, st, sigs, _, _, _ => (st, sigs, some .fuelOut)
  | fuel + 1, st, sigs, nmap, line, fil =>
    if line = [] then (st, sigs, none)
    else if ¬ pyStarts line (lit "[connection") then
      let (line, fil) := readline fil
      connLoop fuel st sigs nmap line fil
    else
      let info := tscnToDict line
      match aGet info (lit "signal") with
      | none =>
        let (line, fil) := readline fil
        connLoop fuel st sigs nmap line fil
      | some sigV =>
        let conn := (aGet sigs sigV).getD {}
        match aGet info (lit "from"), aGet info (lit "to") with
        | some fromV, some toV =>
          let emitter := nmapGet nmap fromV
          let receiver := nmapGet nmap toV
          match emitter, receiver with
          | some e, some r =>
            match aGet info (lit "method") with
            | none => (st, aSet sigs sigV conn, some .keyError)
            | some m =>
              let conn := { conn with
                emitters := conn.emitters ++ [e],
                receivers := conn.receivers ++ [(r, m)] }
              let (line, fil) := readline fil
              connLoop fuel st (aSet sigs sigV conn) nmap line fil
          | _, _ =>
            let (line, fil) := readline fil
            connLoop fuel st (aSet sigs sigV conn) nmap line fil
        | _, _ => (st, aSet sigs sigV conn, some .keyError)

/-- Outcome of `SceneDef._parse_file`. -/
inductive POut
  | ok
  | notReady
  | fail (c : Crash)
  deriving DecidableEq, Repr

/-- `SceneDef._parse_file` (scenedef.py:400-518).  Early returns (a
format marker other than `3` — with only a `TODO` where the error
message should be (scenedef.py:412) — an unresolvable nested resource
id, or a missing root `[node` line) leave the scene value partially
initialised but still count as a normal completion (`ok`);
`ScenesNotParsed` is `notReady`. -/
def parseFileInner (fuel : Nat) (st : St) (fil : Fil) : St × SceneVal × POut :=
  let (line, fil) := readline fil
  match parseForValue line (lit "format") with
  | none => (st, {}, .fail .attrError)
  | some v =>
    if v ≠ TVal.i 3 then (st, {}, .ok)
    else
      let (line, fil) := readline fil
      match extLoop (fil.length + 2) st line fil [] with
      | (st, _, _, .fail c) => (st, {}, .fail c)
      | (st, _, _, .notReady) => (st, {}, .notReady)
      | (st, _, _, .earlyRet) => (st, {}, .ok)
      | (st, ext, fil, .cont line) =>
        match subLoop (fil.length + 2) st line fil ext [] none with
        | (st, _, _, .fail c) => (st, {}, .fail c)
        | (st, _, _, .notReady) => (st, {}, .notReady)
        | (st, _, _, .earlyRet) => (st, {}, .ok)
        | (st, sub, fil, .cont line) =>
          if ¬ pyStarts line (lit "[node") then (st, {}, .ok)
          else
            match nodeStep fuel st ext sub [] fil (some line) with
            | (st, _, _, .error c) => (st, {}, .fail c)
            | (st, nmap, fil, .ok (rootId, lineO)) =>
              let scene0 : SceneVal :=
                { rootId := some rootId, sceneName := (getN st rootId).name, signals := [] }
              match nodesLoop (fil.length + 2) st ext sub nmap fil lineO with
              | (st, _, _, .error c) => (st, scene0, .fail c)
              | (st, nmap, fil, .ok line) =>
                match connLoop (fil.length + 2) st [] nmap line fil with
                | (st, _, some c) => (st, scene0, .fail c)
                | (st, sigs, none) => (st, { scene0 with signals := sigs }, .ok)

/-- `SceneDef.parse_file` (scenedef.py:373-398): run `_parse_file` on
the opened file and then register the scene in `State.scenes` under its
`res://`-prefixed project-relative path (modelled as the caller-supplied
registry key); any exception escapes before the registration. -/
def parseFileM (key : Str) (fil : Fil) (st : St) : St × POut :=
  match parseFileInner ((fil.length + st.nodeArena.length + 16) * 8) st fil with
  | (st, scene, .ok) => ({ st with scenes := aSet st.scenes key scene }, .ok)
  | (st, _, .notReady) => (st, .notReady)
  | (st, _, .fail c) => (st, .fail c)

/-! ## Node-Script Binder (NodeDef.connect_script, scenedef.py:135-191) -/

/-- A bare `print('Error: ...')` followed by `self.state.num_errors += 1`
(the pattern of scenedef.py:157-158, 170-171, 182-183): unconditional,
independent of the routing configuration. -/
def printBump (d : Diag) (st : St) : St :=
  { st with emitted := st.emitted ++ [d], numErrors := st.numErrors + 1 }

/-- `Path.joinpath` on the embedded path strings. -/
def joinPath (a b : Str) : Str :=
  a ++ lit "/" ++ b

/-- The header scan of `connect_script` (scenedef.py:160-168):
`for line in file` with strip, comment skip, and the two `break`
conditions.  Returns the final value of `line` and the lines left
unread, or `none` for an empty file — in which case `line` is an unbound
local and Python raises `UnboundLocalError` at scenedef.py:169. -/
def csGo : List Str → Option (Str × List Str)
  | [] => none
  | l :: rest =>
    let s := pyStrip l
    if pyStarts s (lit "#") then
      match rest with
      | [] => some (s, [])
      | _ => csGo rest
    else if containsSub s (lit "class_name") || containsSub s (lit "var") then some (s, rest)
    else if containsSub s (lit "func") then some (s, rest)
    else
      match rest with
      | [] => some (s, [])
      | _ => csGo rest

/-- The regex `class_name\s+([^#\s]+)` (scenedef.py:173), searched at
every position. -/
def cnGo (t : Str) : Nat → Nat → Option Str
  | _, 0 => none
  | i, fuel + 1 =>
    if subAt t (lit "class_name") i then
      let after := t.drop (i + 10)
      let ws := after.takeWhile isPyWs
      let tok := (after.drop ws.length).takeWhile fun c => ¬ (isPyWs c || c = '#')
      if ws ≠ [] ∧ tok ≠ [] then some tok
      else if i < t.length then cnGo t (i + 1) fuel else none
    else if i < t.length then cnGo t (i + 1) fuel else none

/-- `class_name\s+([^#\s]+)` search, group 1. -/
def classNameSearch (t : Str) : Option Str :=
  cnGo t 0 (t.length + 2)

/-- The regex `\s*([^#\s]+)` (scenedef.py:177): the first maximal run of
characters that are neither whitespace nor `#`. -/
def tokenSearch (t : Str) : Option Str :=
  let rest := t.dropWhile fun c => isPyWs c || c = '#'
  let tok := rest.takeWhile fun c => ¬ (isPyWs c || c = '#')
  if tok = [] then none else some tok

/-- `NodeDef.connect_script` (scenedef.py:135-191) on the arena node
`nid`.  `fs` is the filesystem visible through `path.exists()` /
`open(path)`, mapping a joined path to the script file's lines. -/
def connectScript (fs : List (Str × List Str)) (nid : Nat) (st : St) :
    St × Option Crash := Id.run do
  let node := getN st nid
  match node.scriptPath with
  | none => return (st, none)
  | some sp =>
  if node.script ≠ none then
    return (st, none)
  match sp with
  | .i _ => return (st, some .typeError)
  | .s spv =>
  let path := pyDrop spv 6
  match aGet st.scriptDocs path with
  | some script =>
    return (setN st nid { node with script := some script }, none)
  | none =>
  let full := joinPath st.projPath path
  match aGet fs full with
  | none =>
    return (printBump .nodeMissingScript st, none)
  | some fileLines =>
  match csGo fileLines with
  | none => return (st, some .nameError)
  | some (line, remaining) =>
  if ¬ containsSub line (lit "class_name") then
    return (printBump .nodeUndocScript st, none)
  let classNameO :=
    match classNameSearch line with
    | some cn => some cn
    | none =>
      let line2 := pyStrip (readline remaining).1
      tokenSearch line2
  match classNameO with
  | none => return (printBump .noClassNameFound st, none)
  | some cn =>
  match aGet st.classes cn with
  | none => return (printPlain .undocClass st, none)
  | some doc =>
    match node.typeName with
    | none => return (st, some .attrError)
    | some _ =>
      return (setN st nid { node with script := some doc, typeName := some cn }, none)

/-! ## Driver retry loop (godot_docgen.load_files, godot_docgen.py:66-82) -/

/-- One full pass of the retry loop: `for i in range(size - 1, -1, -1)`
attempts the batch from the back of the list, popping the files that
parse and keeping the `ScenesNotParsed` ones; an uncaught exception
aborts the whole program. -/
def scenePass : List (Str × Fil) → St → List (Str × Fil) × St × Option Crash
  | [], st => ([], st, none)
  | f :: rest, st =>
    match scenePass rest st with
    | (rest', st, some c) => (f :: rest', st, some c)
    | (rest', st, none) =>
      match parseFileM f.1 f.2 st with
      | (st, .ok) => (rest', st, none)
      | (st, .notReady) => (f :: rest', st, none)
      | (st, .fail c) => (f :: rest', st, some c)

/-- The batch-failure report (godot_docgen.py:79-81): one
`Failed to parse {size} scenes:` error plus one `Could not parse` error
per still-unparsed file. -/
def emitBatchFailure (remaining : List (Str × Fil)) (st : St) : St :=
  remaining.foldl (fun st f => printError (.couldNotParse f.1) st)
    (printError (.failedBatch remaining.length) st)

/-- The `while tscn:` retry loop (godot_docgen.py:66-82).  Returns the
final state, the paths named by a batch-failure report (empty on
success), the number of passes run, and an uncaught exception if one
escaped.  The loop stops the first time a full pass pops no file
(`skipped == size`). -/
def loadLoop : Nat → List (Str × Fil) → St → Nat → St × List Str × Nat × Option Crash
  | 0, _, st, passes => (st, [], passes, some .fuelOut)
  | fuel + 1, tscn, st, passes =>
    match tscn with
    | [] => (st, [], passes, none)
    | _ :: _ =>
      let size := tscn.length
      match scenePass tscn st with
      | (_, st, some c) => (st, [], passes, some c)
      | (tscn', st, none) =>
        if tscn'.length = size then
          (emitBatchFailure tscn' st, tscn'.map Prod.fst, passes + 1, none)
        else loadLoop fuel tscn' st (passes + 1)

/-- The scene portion of `load_files`: run the retry loop over the
discovered `.tscn` files (each given as registry key and open file). -/
def loadScenes (tscn : List (Str × Fil)) (st : St) : St × List Str × Nat × Option Crash :=
  loadLoop (tscn.length + 2) tscn st 0

/-! ## Observables used by the theorems -/

/-- How many diagnostics of kind `d` a log contains. -/
def countDiag (d : Diag) (l : List Diag) : Nat :=
  (l.filter (· = d)).length

/-- The observables of the depth-mismatch analysis: how many
depth-mismatch diagnostics have been emitted so far, and the error
routing. -/
def dmObs (st : St) : Nat × Bool :=
  (countDiag Diag.depthMismatch st.emitted, st.errSink)

/-- The state carried by a tag-scan branch outcome. -/
def fbSt : FtbBr → St
  | .halt st _ => st
  | .jump _ _ _ _ _ _ _ _ _ st => st
  | .tail _ _ _ _ _ _ _ _ _ _ _ _ st => st

/-- Two states agree on everything a diagnostic observer sees. -/
def QuietSame (st st' : St) : Prop :=
  st'.emitted = st.emitted ∧ st'.numErrors = st.numErrors ∧
  st'.numWarnings = st.numWarnings ∧ st'.errSink = st.errSink ∧
  st'.warnSink = st.warnSink

/-- "`fil` is a scene file whose external-scene dependencies are exactly
`deps`": against any state whose registry contains every dependency,
`SceneDef.parse_file` completes and registers the scene under the given
key, quietly; against any state missing a dependency it raises
`ScenesNotParsed`, quietly and without touching the registry.  This is
the interface the driver's retry contract quantifies over; concrete
`.tscn` files realising it are exhibited with the witness. -/
def DepFile (fil : Fil) (deps : List Str) : Prop :=
  ∀ key st,
    ((∀ d ∈ deps, aMem st.scenes d = true) →
      ∃ st' scene, parseFileM key fil st = (st', .ok) ∧
        st'.scenes = aSet st.scenes key scene ∧ QuietSame st st') ∧
    ((∃ d ∈ deps, aMem st.scenes d = false) →
      ∃ st', parseFileM key fil st = (st', .notReady) ∧
        st'.scenes = st.scenes ∧ QuietSame st st')

/-- A scene file for the driver contract: registry key, open file,
dependency keys. -/
structure SpecFile where
  key : Str
  fil : Fil
  deps : List Str
  deriving DecidableEq

/-- The registry-key / open-file pair handed to the driver for a scene
file. -/
def sfPair (f : SpecFile) : Str × Fil := (f.key, f.fil)

/-- A two-line scene file with no external resources (realises
`DepFile · []`). -/
def noDepFil : Fil :=
  [lit "[gd_scene format=3]\n", lit "[node name=\"R\"]\n"]

/-- A scene file with one external `PackedScene` dependency (realises
`DepFile · [dep]` for the tame keys used in the witness). -/
def oneDepFil (dep : Str) : Fil :=
  [lit "[gd_scene format=3]\n",
   lit "[ext_resource type=\"PackedScene\" path=\"" ++ dep ++ lit "\" id=\"1\"]\n",
   lit "[node name=\"R\"]\n"]

/-- The symbol-table state of the concrete cross-reference scenario:
class `Foo` with method `bar`, no class `Baz`, context `Foo`. -/
def fooState : St :=
  { classes := [(lit "Foo", { methods := [lit "bar"] })], curClass := lit "Foo" }

/-- The override scene file of the duplicate-path scenario: a root, a
node `A` of type `Label`, then a second declaration of `A` (type
`Button`) at the same computed path. -/
def overrideFil : Fil :=
  [lit "[gd_scene format=3]\n", lit "\n",
   lit "[node name=\"Root\"]\n", lit "\n",
   lit "[node name=\"A\" parent=\".\" type=\"Label\"]\n", lit "\n",
   lit "[node name=\"A\" parent=\".\" type=\"Button\"]\n"]

/-- The state of a single node whose script reference points at an
existing but empty `.gd` file. -/
def emptyScriptState : St :=
  { nodeArena := [{ name := lit "N", scriptPath := some (TVal.s (lit "res://e.gd")),
                    typeName := some (lit "Node") }],
    projPath := lit "/p" }

/-!
# Theorems
-/

/-- C1.  The transpiler and the scene resolver are claimed never to
raise, but both can: transpiling a text that ends in a `[br]` tag
reaches `while post_text[0] == " "` (rst_generation.py:470) with an
empty remainder and raises `IndexError`, and `parse_for_value` applied
to a header line without a `format` attribute (scenedef.py:23, reached
from `SceneDef._parse_file` on any such file) calls `.group(1)` on
`None` and raises `AttributeError`; text merely ending in an underscore
is indeed safe. -/
theorem c1_transpiler_resolver_crash :
    (formatTextBlock (lit "[br]") {}).2 = .fail .indexError ∧
    parseForValue (lit "[gd_scene]\n") (lit "format") = none ∧
    (parseFileM (lit "res://x.tscn") [lit "[gd_scene]\n"] {}).2 = .fail .attrError ∧
    (formatTextBlock (lit "ends in underscore_") {}).2 =
      .out (lit "ends in underscore_") 0 := by
  refine ⟨by decide, by decide, by decide, by decide⟩

/-- C2.  Two node declarations at the same computed path: after
`_parse_file` the node map holds *no* record at that path — the
`NodeExists` handler pops the prior record but the re-parse is invoked
with the caller's stale `line` (still `None`, scenedef.py:485-495), so
it reads the next line and returns without re-inserting anything — the
parent's children list still holds the stale original, and the later
declaration's data (`Button`) is lost.  The chain below re-runs the
node section exactly as `_parse_file` does and checks the full parse
also completes and registers. -/
theorem c2_override_drops_node :
    ((nodeStep 64 {} [] [] [] (overrideFil.drop 2) (some (overrideFil.get! 2))).1 =
      { nodeArena := [{ name := lit "Root", defName := lit "node" }] } ∧
     (nodeStep 64 {} [] [] [] (overrideFil.drop 2) (some (overrideFil.get! 2))).2.1 =
      [(lit ".", 0)] ∧
     (nodeStep 64 {} [] [] [] (overrideFil.drop 2) (some (overrideFil.get! 2))).2.2.1 =
      overrideFil.drop 4 ∧
     (nodeStep 64 {} [] [] [] (overrideFil.drop 2) (some (overrideFil.get! 2))).2.2.2 =
      .ok (0, none)) ∧
    (let s2 := nodesLoop 8 { nodeArena := [{ name := lit "Root", defName := lit "node" }] }
        [] [] [(lit ".", 0)] (overrideFil.drop 4) none
     aGet s2.2.1 (lit "A") = none ∧
     (getN s2.1 0).children = [1] ∧
     (getN s2.1 1).name = lit "A" ∧ (getN s2.1 1).typeName = some (lit "Label") ∧
     (getN s2.1 3).typeName = some (lit "Label") ∧ (getN s2.1 3).name = [] ∧
     (s2.1.nodeArena.filter (fun n => n.typeName = some (lit "Button"))).length = 0) ∧
    (parseFileM (lit "res://c2.tscn") overrideFil {}).2 = .ok ∧
    aMem (parseFileM (lit "res://c2.tscn") overrideFil {}).1.scenes (lit "res://c2.tscn") =
      true := by
  exact ⟨⟨by decide, by decide, by decide, by decide⟩,
    ⟨by decide, by decide, by decide, by decide, by decide, by decide, by decide⟩,
    by decide, by decide⟩

/-- C5.  A scene file whose `format` marker is not the supported `3`
aborts that file, but silently: `_parse_file` returns at
scenedef.py:411-413 behind a bare `TODO: Print an error message` —
no message is emitted and the error counter stays untouched (and the
outcome is a normal return, not `ScenesNotParsed`, so the overall run
continues; the scene is even registered). -/
theorem c5_version_mismatch_is_silent :
    (parseFileM (lit "res://c5.tscn") [lit "[gd_scene format=2]\n"] {}).2 = .ok ∧
    (parseFileM (lit "res://c5.tscn") [lit "[gd_scene format=2]\n"] {}).1.numErrors = 0 ∧
    (parseFileM (lit "res://c5.tscn") [lit "[gd_scene format=2]\n"] {}).1.emitted = [] := by
  refine ⟨by decide, by decide, by decide⟩

/-- C6 counterexample.  A file aborted by the fatal
unsupported-format-version error is nonetheless added to the Scene
Registry: `parse_file` registers unconditionally after `_parse_file`
returns (scenedef.py:396-398), so the claimed "aborted files are not
registered" is false. -/
theorem c6_counterexample_aborted_file_registered :
    (parseFileM (lit "res://c6.tscn") [lit "[gd_scene format=2]\n"] {}).2 = .ok ∧
    aMem (parseFileM (lit "res://c6.tscn") [lit "[gd_scene format=2]\n"] {}).1.scenes
      (lit "res://c6.tscn") = true ∧
    Option.map SceneVal.rootId
      (aGet (parseFileM (lit "res://c6.tscn") [lit "[gd_scene format=2]\n"] {}).1.scenes
        (lit "res://c6.tscn")) = some none := by
  refine ⟨by decide, by decide, by decide⟩

/-- C7.  The concrete scenario: with class `Foo` (method `bar`) and no
class `Baz`, transpiling `"See [method bar] and [method Baz.qux]."` in
the context of `Foo` produces exactly one unresolved-reference
diagnostic and the shown output: an internal reference anchored
`class_Foo_method_bar` for the first tag, and for the second the
literal target text `Baz.qux` as the label of a (dangling) reference
`class_Baz_method_qux`. -/
theorem c7_concrete_crossref_scenario :
    (formatTextBlock (lit "See [method bar] and [method Baz.qux].") fooState).2 =
      .out (lit "See :ref:`bar<class_Foo_method_bar>` and :ref:`Baz.qux<class_Baz_method_qux>`.") 0 ∧
    (formatTextBlock (lit "See [method bar] and [method Baz.qux].") fooState).1.emitted =
      [.unresTypeRef] ∧
    (formatTextBlock (lit "See [method bar] and [method Baz.qux].") fooState).1.numErrors = 1 := by
  refine ⟨by decide, by decide, by decide⟩

/-- C8.  Not every diagnostic increments the shared counters: with the
error channel configured to discard (`state.error = None`),
`utils.print_error` returns before incrementing (utils.py:35-36); and
even with default routing, the binder's undocumented-class branch
(scenedef.py:185-187) prints its error without incrementing
`num_errors`, while the sibling branches do. -/
theorem c8_counter_not_always_incremented :
    (printError .unresMethod { errSink := false }).numErrors = 0 ∧
    (printError .unresMethod { errSink := false }).emitted = [] ∧
    (printError .unresMethod {}).numErrors = 1 ∧
    ((connectScript [(lit "/p/e.gd", [lit "class_name Other\n"])] 0 emptyScriptState).1.emitted
      = [.undocClass] ∧
     (connectScript [(lit "/p/e.gd", [lit "class_name Other\n"])] 0 emptyScriptState).1.numErrors
      = 0) := by
  exact ⟨by decide, by decide, by decide, by decide, by decide⟩

/-- C9.  A script file that exists but contains no line at all is a
"no class-name token" failure the binder is claimed to turn into a
non-fatal error; instead the `for line in file` scan leaves the local
`line` unbound and `'class_name' not in line` (scenedef.py:169) raises
`UnboundLocalError`. -/
theorem c9_empty_script_crashes_binder :
    connectScript [(lit "/p/e.gd", [])] 0 emptyScriptState =
      (emptyScriptState, some .nameError) := by
  decide

theorem scenes_printError (d : Diag) (st : St) : (printError d st).scenes = st.scenes := by
  unfold printError; split <;> rfl

theorem scenes_printWarning (d : Diag) (st : St) : (printWarning d st).scenes = st.scenes := by
  unfold printWarning; split <;> rfl

theorem scenes_copyNode (st : St) (i : Nat) : (copyNode st i).1.scenes = st.scenes := rfl

theorem scenes_trailingLoop (selfId : Nat) (ext sub : List (TVal × Nat)) :
    ∀ (fuel : Nat) (st : St) (fil : Fil) out,
      trailingLoop selfId ext sub fuel st fil = out → out.1.scenes = st.scenes := by
  intro fuel
  induction fuel with
  | zero => intro st fil out h; subst h; rfl
  | succ n ih =>
    intro st fil out h
    unfold trailingLoop at h
    dsimp only at h
    repeat' split at h
    all_goals first
      | (subst h; rfl)
      | exact (ih _ _ _ h).trans rfl
      | exact (ih _ _ _ h).trans (scenes_printWarning _ _)

theorem scenes_fromTscnFile (fuel : Nat) (st : St) (selfId : Nat)
    (ext sub : List (TVal × Nat)) (nmap : List (Str × Nat)) (fil : Fil)
    (lineO : Option Str) :
    ∀ out, fromTscnFile fuel st selfId ext sub nmap fil lineO = out →
      out.1.scenes = st.scenes := by
  intro out h
  unfold fromTscnFile at h
  dsimp only [Id.run, bind, pure] at h
  repeat' split at h
  all_goals first
    | (subst h; rfl)
    | exact (scenes_trailingLoop _ _ _ _ _ _ _ h).trans rfl
    | (subst h
       exact (scenes_trailingLoop _ _ _ _ _ _ _ (by assumption)).trans rfl)

theorem scenes_fromTscnFile_tup {fuel : Nat} {st : St} {selfId : Nat}
    {ext sub : List (TVal × Nat)} {nmap : List (Str × Nat)} {fil : Fil}
    {lineO : Option Str} {st' : St} {a b c}
    (h : fromTscnFile fuel st selfId ext sub nmap fil lineO = (st', a, b, c)) :
    st'.scenes = st.scenes :=
  scenes_fromTscnFile fuel st selfId ext sub nmap fil lineO _ h

theorem scenes_nodeStep (fuel : Nat) (st : St) (ext sub : List (TVal × Nat))
    (nmap : List (Str × Nat)) (fil : Fil) (lineO : Option Str) :
    ∀ out, nodeStep fuel st ext sub nmap fil lineO = out → out.1.scenes = st.scenes := by
  intro out h
  unfold nodeStep at h
  dsimp only at h
  split at h
  case h_1 st1 nmap1 fil1 l heq =>
    subst h; exact (scenes_fromTscnFile _ _ _ _ _ _ _ _ _ heq).trans rfl
  case h_2 st1 nmap1 fil1 c heq =>
    subst h; exact (scenes_fromTscnFile _ _ _ _ _ _ _ _ _ heq).trans rfl
  case h_3 st1 nmap1 fil1 p heq =>
    split at h
    case h_1 hpop =>
      subst h; exact (scenes_fromTscnFile _ _ _ _ _ _ _ _ _ heq).trans rfl
    case h_2 oldId nmapP hpop =>
      split at h <;>
        (subst h
         exact (scenes_fromTscnFile _ _ _ _ _ _ _ _ _ (by assumption)).trans
          ((scenes_copyNode _ _).trans
            ((scenes_fromTscnFile _ _ _ _ _ _ _ _ _ heq).trans rfl)))

theorem scenes_nodeStep_tup {fuel : Nat} {st : St} {ext sub : List (TVal × Nat)}
    {nmap : List (Str × Nat)} {fil : Fil} {lineO : Option Str} {st' : St} {a b c}
    (h : nodeStep fuel st ext sub nmap fil lineO = (st', a, b, c)) :
    st'.scenes = st.scenes :=
  scenes_nodeStep fuel st ext sub nmap fil lineO _ h

theorem scenes_nodesLoop :
    ∀ (fuel : Nat) (st : St) (ext sub : List (TVal × Nat)) (nmap : List (Str × Nat))
      (fil : Fil) (lineO : Option Str) out,
      nodesLoop fuel st ext sub nmap fil lineO = out → out.1.scenes = st.scenes := by
  intro fuel
  induction fuel with
  | zero => intro st ext sub nmap fil lineO out h; subst h; rfl
  | succ n ih =>
    intro st ext sub nmap fil lineO out h
    unfold nodesLoop at h
    try dsimp only at h
    repeat' split at h
    all_goals first
      | (subst h
         exact (scenes_nodeStep _ _ _ _ _ _ _ _ (by assumption)).trans rfl)
      | exact (ih _ _ _ _ _ _ _ h).trans
          ((scenes_nodeStep _ _ _ _ _ _ _ _ (by assumption)).trans rfl)

theorem scenes_nodesLoop_tup {fuel : Nat} {st : St} {ext sub : List (TVal × Nat)}
    {nmap : List (Str × Nat)} {fil : Fil} {lineO : Option Str} {st' : St} {a b c}
    (h : nodesLoop fuel st ext sub nmap fil lineO = (st', a, b, c)) :
    st'.scenes = st.scenes :=
  scenes_nodesLoop fuel st ext sub nmap fil lineO _ h

theorem scenes_extLoop :
    ∀ (fuel : Nat) (st : St) (line : Str) (fil : Fil) (ext : List (TVal × Nat)) out,
      extLoop fuel st line fil ext = out → out.1.scenes = st.scenes := by
  intro fuel
  induction fuel with
  | zero => intro st line fil ext out h; subst h; rfl
  | succ n ih =>
    intro st line fil ext out h
    unfold extLoop at h
    dsimp only at h
    repeat' split at h
    all_goals first
      | (subst h; rfl)
      | exact (ih _ _ _ _ _ h).trans rfl

theorem scenes_extLoop_tup {fuel : Nat} {st : St} {line : Str} {fil : Fil}
    {ext : List (TVal × Nat)} {st' : St} {a b c}
    (h : extLoop fuel st line fil ext = (st', a, b, c)) : st'.scenes = st.scenes :=
  scenes_extLoop fuel st line fil ext _ h

theorem scenes_subLoop :
    ∀ (fuel : Nat) (st : St) (line : Str) (fil : Fil) (ext sub : List (TVal × Nat))
      (current : Option TVal) out,
      subLoop fuel st line fil ext sub current = out → out.1.scenes = st.scenes := by
  intro fuel
  induction fuel with
  | zero => intro st line fil ext sub current out h; subst h; rfl
  | succ n ih =>
    intro st line fil ext sub current out h
    unfold subLoop at h
    dsimp only at h
    repeat' split at h
    all_goals first
      | (subst h; rfl)
      | exact (ih _ _ _ _ _ _ _ h).trans rfl

theorem scenes_subLoop_tup {fuel : Nat} {st : St} {line : Str} {fil : Fil}
    {ext sub : List (TVal × Nat)} {current : Option TVal} {st' : St} {a b c}
    (h : subLoop fuel st line fil ext sub current = (st', a, b, c)) :
    st'.scenes = st.scenes :=
  scenes_subLoop fuel st line fil ext sub current _ h

theorem scenes_connLoop :
    ∀ (fuel : Nat) (st : St) (sigs : List (TVal × ConnData)) (nmap : List (Str × Nat))
      (line : Str) (fil : Fil) out,
      connLoop fuel st sigs nmap line fil = out → out.1.scenes = st.scenes := by
  intro fuel
  induction fuel with
  | zero => intro st sigs nmap line fil out h; subst h; rfl
  | succ n ih =>
    intro st sigs nmap line fil out h
    unfold connLoop at h
    try dsimp only at h
    repeat' split at h
    all_goals first
      | (subst h; rfl)
      | exact (ih _ _ _ _ _ _ h).trans rfl

theorem scenes_connLoop_tup {fuel : Nat} {st : St} {sigs : List (TVal × ConnData)}
    {nmap : List (Str × Nat)} {line : Str} {fil : Fil} {st' : St} {a b}
    (h : connLoop fuel st sigs nmap line fil = (st', a, b)) : st'.scenes = st.scenes :=
  scenes_connLoop fuel st sigs nmap line fil _ h

theorem scenes_parseFileInner (fuel : Nat) (st : St) (fil : Fil) :
    ∀ out, parseFileInner fuel st fil = out → out.1.scenes = st.scenes := by
  intro out h
  unfold parseFileInner at h
  dsimp only at h
  repeat' split at h
  all_goals subst h
  all_goals try dsimp only
  all_goals
    repeat
      first
      | rfl
      | (refine Eq.trans (scenes_connLoop _ _ _ _ _ _ _ (by assumption)) ?_)
      | (refine Eq.trans (scenes_nodesLoop _ _ _ _ _ _ _ _ (by assumption)) ?_)
      | (refine Eq.trans (scenes_nodeStep _ _ _ _ _ _ _ _ (by assumption)) ?_)
      | (refine Eq.trans (scenes_subLoop _ _ _ _ _ _ _ _ (by assumption)) ?_)
      | (refine Eq.trans (scenes_extLoop _ _ _ _ _ _ (by assumption)) ?_)

theorem aMem_aSet {κ α : Type} [DecidableEq κ] (m : List (κ × α)) (k x : κ) (v : α) :
    aMem (aSet m k v) x = (decide (x = k) || aMem m x) := by
  induction m with
  | nil =>
    by_cases h : x = k
    · simp [aSet, aMem, aGet, h]
    · have h' : ¬ k = x := fun hk => h hk.symm
      simp [aSet, aMem, aGet, h, h']
  | cons p rest ih =>
    obtain ⟨k', v'⟩ := p
    by_cases h1 : k' = k
    · subst h1
      by_cases h2 : x = k'
      · subst h2; simp [aSet, aMem, aGet]
      · have h2' : ¬ k' = x := fun hk => h2 hk.symm
        simp [aSet, aMem, aGet, h2, h2']
    · by_cases h3 : k' = x
      · subst h3
        simp [aSet, aMem, aGet, h1]
      · have ih2 := ih
        simp only [aMem] at ih2
        simp [aSet, aMem, aGet, h1, h3, ih2]

/-- C6 (amended).  A scene is added to the Scene Registry exactly when
`parse_file` returns without raising: `ScenesNotParsed` (and any
uncaught exception) leaves the registry unchanged, while a normal
return — including the silent fatal aborts — registers the scene under
its key, and registration never removes an existing entry
(scenedef.py:373-398). -/
theorem c6_amended_registry_lifecycle (key : Str) (fil : Fil) (st : St) :
    (∀ st', parseFileM key fil st = (st', .notReady) → st'.scenes = st.scenes) ∧
    (∀ st' c, parseFileM key fil st = (st', .fail c) → st'.scenes = st.scenes) ∧
    (∀ st', parseFileM key fil st = (st', .ok) →
      ∃ scene, st'.scenes = aSet st.scenes key scene ∧
        ∀ k, aMem st.scenes k = true → aMem st'.scenes k = true) := by
  refine ⟨?_, ?_, ?_⟩
  · intro st' h
    unfold parseFileM at h
    split at h
    all_goals simp only [Prod.mk.injEq] at h
    all_goals try exact POut.noConfusion h.2
    all_goals obtain ⟨h1, -⟩ := h
    all_goals subst h1
    all_goals exact scenes_parseFileInner _ _ _ _ (by assumption)
  · intro st' c h
    unfold parseFileM at h
    split at h
    all_goals simp only [Prod.mk.injEq] at h
    all_goals try exact POut.noConfusion h.2
    all_goals obtain ⟨h1, -⟩ := h
    all_goals subst h1
    all_goals exact scenes_parseFileInner _ _ _ _ (by assumption)
  · intro st' h
    unfold parseFileM at h
    split at h
    all_goals simp only [Prod.mk.injEq] at h
    all_goals try exact POut.noConfusion h.2
    rename_i st1 scene heqI
    obtain ⟨h1, -⟩ := h
    refine ⟨scene, ?_, ?_⟩
    · rw [← h1]
      show aSet st1.scenes key scene = aSet st.scenes key scene
      rw [scenes_parseFileInner _ _ _ _ heqI]
    · intro k hk
      rw [← h1]
      show aMem (aSet st1.scenes key scene) k = true
      rw [aMem_aSet, scenes_parseFileInner _ _ _ _ heqI, hk, Bool.or_true]

/-- Witness for C6 (amended): the silently-aborted `format=2` file is
registered into the empty registry. -/
theorem c6_amended_witness :
    ∃ scene,
      (parseFileM (lit "res://w.tscn") [lit "[gd_scene format=2]\n"] {}).1.scenes =
        aSet (St.scenes {}) (lit "res://w.tscn") scene ∧
      ∀ k, aMem (St.scenes {}) k = true →
        aMem (parseFileM (lit "res://w.tscn") [lit "[gd_scene format=2]\n"] {}).1.scenes k =
          true :=
  (c6_amended_registry_lifecycle (lit "res://w.tscn") [lit "[gd_scene format=2]\n"] {}).2.2
    _ (by decide)

/-- C3 counterexample.  The input `"[/i]"` ends the scan with a
`tag_depth` of `-1` — a nonzero counter, for which the claim demands
exactly one depth-mismatch diagnostic — yet none is produced: the final
report is guarded by `tag_depth > 0` (rst_generation.py:565), so an
excess of closing tags goes unreported. -/
theorem c3_counterexample_negative_depth_unreported :
    (formatTextBlock (lit "[/i]") {}).2 = .out (lit "*") (-1) ∧
    countDiag .depthMismatch (formatTextBlock (lit "[/i]") {}).1.emitted = 0 := by
  exact ⟨by decide, by decide⟩

/-- C10.  `connect_script` is idempotent on the node: when the node has
no script path, or a script document is already attached (as after any
successful call), the method returns at scenedef.py:142-145 without
reading any file (the result is independent of the filesystem), without
emitting anything, and without modifying the node or the shared state. -/
theorem c10_connect_script_idempotent (fs : List (Str × List Str)) (st : St) (nid : Nat)
    (h : (getN st nid).scriptPath = none ∨ (getN st nid).script ≠ none) :
    connectScript fs nid st = (st, none) := by
  rcases hsp : (getN st nid).scriptPath with _ | sp
  · simp [connectScript, hsp, Id.run]
  · have hs : (getN st nid).script ≠ none := by
      rcases h with h | h
      · rw [hsp] at h; cases h
      · exact h
    simp [connectScript, hsp, hs, Id.run]

/-- Witness for C10: a concrete node with an attached script document is
left untouched by a further `connect_script` call. -/
theorem c10_witness :
    connectScript [(lit "/p/e.gd", [lit "class_name Other\n"])] 0
      { nodeArena := [{ name := lit "N", scriptPath := some (TVal.s (lit "res://e.gd")),
                        script := some {} }] } =
      ({ nodeArena := [{ name := lit "N", scriptPath := some (TVal.s (lit "res://e.gd")),
                         script := some {} }] }, none) :=
  c10_connect_script_idempotent _ _ _ (Or.inr (by decide))

theorem dmObs_printError (d : Diag) (st : St) (h : ¬ d = Diag.depthMismatch) :
    dmObs (printError d st) = dmObs st := by
  unfold printError dmObs countDiag
  split
  · rfl
  · simp [List.filter_append, h]

theorem dmObs_printWarning (d : Diag) (st : St) (h : ¬ d = Diag.depthMismatch) :
    dmObs (printWarning d st) = dmObs st := by
  unfold printWarning dmObs countDiag
  split
  · rfl
  · simp [List.filter_append, h]

theorem dmObs_addHit (st : St) : dmObs (addHit st) = dmObs st := by
  simp [addHit, dmObs, countDiag, List.filter_append]

theorem dmObs_makeType (k : Str) (st : St) :
    ∀ out, makeType k st = out → dmObs out.1 = dmObs st := by
  intro out h
  unfold makeType at h
  dsimp only at h
  repeat' split at h
  all_goals subst h
  all_goals simp [dmObs_printError]

theorem dmObs_makeTypeP (k : Str) (st : St) : dmObs (makeType k st).1 = dmObs st :=
  dmObs_makeType k st _ rfl

theorem dmObs_makeEnum (t : Str) (b : Bool) (st : St) :
    ∀ out, makeEnum t b st = out → dmObs out.1 = dmObs st := by
  intro out h
  unfold makeEnum at h
  dsimp only at h
  repeat' split at h
  all_goals subst h
  all_goals simp [dmObs_printError]

theorem dmObs_makeEnumP (t : Str) (b : Bool) (st : St) :
    dmObs (makeEnum t b st).1 = dmObs st :=
  dmObs_makeEnum t b st _ rfl

theorem dmObs_fcRemoveTabs (il : Nat) :
    ∀ fuel code cp st out, fcRemoveTabs il fuel code cp st = out → dmObs out.1 = dmObs st := by
  intro fuel
  induction fuel with
  | zero =>
    intro code cp st out h
    unfold fcRemoveTabs at h
    subst h
    rfl
  | succ n ih =>
    intro code cp st out h
    unfold fcRemoveTabs at h
    dsimp only at h
    repeat' split at h
    all_goals first
      | (subst h; rfl)
      | exact (ih _ _ _ _ h).trans (by simp [dmObs_printError])

theorem dmObs_formatCodeblock (ts : TagState) (postText : Str) (il : Nat) (st : St) :
    ∀ out, formatCodeblock ts postText il st = out → dmObs out.1 = dmObs st := by
  intro out h
  unfold formatCodeblock at h
  dsimp only at h
  repeat' split at h
  all_goals subst h
  all_goals
    repeat
      first
      | rfl
      | simp [dmObs_printError]
      | (refine Eq.trans (dmObs_fcRemoveTabs _ _ _ _ _ _ (by assumption)) ?_)

set_option maxHeartbeats 1600000 in
theorem dmObs_stage1 :
    ∀ fuel text pos st out, stage1 fuel text pos st = out → dmObs out.1 = dmObs st := by
  intro fuel
  induction fuel with
  | zero =>
    intro text pos st out h
    unfold stage1 at h
    subst h
    rfl
  | succ n ih =>
    intro text pos st out h
    unfold stage1 at h
    dsimp only at h
    repeat' split at h
    all_goals subst h
    all_goals try dsimp only
    all_goals
      repeat
        first
        | rfl
        | (refine Eq.trans (ih _ _ _ _ rfl) ?_)
        | (refine Eq.trans (dmObs_formatCodeblock _ _ _ _ _ (by assumption)) ?_)

theorem dmObs_hcCaseP (f : Bool) (d : Diag) (tcn tn rt : Str) (st : St)
    (hd : ¬ d = Diag.depthMismatch) :
    dmObs (hcCase f d tcn tn rt st).1 = dmObs st := by
  unfold hcCase
  dsimp only
  split
  all_goals simp [dmObs_printError, hd]

theorem dmObs_hcConstantP (lt tcn tn : Str) (cd : ClassDoc) (st : St) :
    dmObs (hcConstant lt tcn tn cd st).1 = dmObs st := by
  unfold hcConstant
  dsimp only
  repeat' split
  all_goals simp [dmObs_hcCaseP]

set_option maxHeartbeats 1600000 in
theorem dmObs_hcTargetP (ts : TagState) (lt tcn tn : Str) (rest : List Str) (st : St) :
    dmObs (hcTarget ts lt tcn tn rest st).1 = dmObs st := by
  unfold hcTarget
  dsimp only
  repeat' split
  all_goals simp [dmObs_hcCaseP, dmObs_hcConstantP, dmObs_printError]

set_option maxHeartbeats 1600000 in
theorem dmObs_handleCrosslinkP (tag : Str) (ts : TagState) (st : St) :
    dmObs (handleCrosslink tag ts st).1 = dmObs st := by
  unfold handleCrosslink
  dsimp only
  repeat' split
  all_goals simp [dmObs_hcTargetP, dmObs_printError, dmObs_makeEnumP]

theorem dmObs_handleCrosslink (tag : Str) (ts : TagState) (st : St) :
    ∀ out, handleCrosslink tag ts st = out → dmObs out.1 = dmObs st :=
  fun _ h => h ▸ dmObs_handleCrosslinkP tag ts st

theorem dmObs_ftbInsideCodeP (tag preText postText : Str) (ts : TagState) (ict : Str)
    (ictabs icw hg hc : Bool) (td : Int) (st : St) :
    dmObs (fbSt (ftbInsideCode tag preText postText ts ict ictabs icw hg hc td st)) =
      dmObs st := by
  unfold ftbInsideCode
  try dsimp only
  repeat' split
  all_goals simp [fbSt, dmObs_printWarning]

theorem dmObs_ftbCodeblockTagP (preText postText : Str) (ts : TagState)
    (ictabs hg hc : Bool) (td : Int) (st : St) :
    dmObs (fbSt (ftbCodeblockTag preText postText ts ictabs hg hc td st)) = dmObs st := by
  unfold ftbCodeblockTag
  try dsimp only
  repeat' split
  all_goals simp [fbSt, dmObs_printError, dmObs_addHit]

theorem dmObs_ftbUrlP (text : Str) (pos0 endq : Int) (preText postText tag : Str)
    (ts : TagState) (ic : Bool) (ict : Str) (ictabs icw hg hc : Bool) (td : Int) (st : St) :
    dmObs (fbSt (ftbUrl text pos0 endq preText postText tag ts ic ict ictabs icw hg hc td st)) =
      dmObs st := by
  unfold ftbUrl
  try dsimp only
  repeat' split
  all_goals simp [fbSt, dmObs_printError]

theorem dmObs_ftbSimpleTagP (preText postText tag : Str) (ts : TagState) (ic : Bool)
    (ict : Str) (ictabs icw hg hc : Bool) (td : Int) (st : St) :
    dmObs (fbSt (ftbSimpleTag preText postText tag ts ic ict ictabs icw hg hc td st)) =
      dmObs st := by
  unfold ftbSimpleTag
  try dsimp only
  repeat' split
  all_goals simp [fbSt, dmObs_printError]

theorem dmObs_ftbBranch (text : Str) (pos0 endq : Int) (ic : Bool) (ict : Str)
    (ictabs icw hg hc : Bool) (td : Int) (st : St) :
    ∀ out, ftbBranch text pos0 endq ic ict ictabs icw hg hc td st = out →
      dmObs (fbSt out) = dmObs st := by
  intro out h
  subst h
  unfold ftbBranch
  try dsimp only
  repeat' split
  all_goals
    first
    | (simp only [dmObs_ftbInsideCodeP, dmObs_ftbCodeblockTagP, dmObs_ftbUrlP,
         dmObs_ftbSimpleTagP]; done)
    | (simp [fbSt, dmObs_makeTypeP, dmObs_addHit, dmObs_printError, dmObs_printWarning]; done)
    | (refine Eq.trans (dmObs_handleCrosslink _ _ _ _ (by assumption)) ?_; rfl)

theorem countDiag_append_self (d : Diag) (l : List Diag) :
    countDiag d (l ++ [d]) = countDiag d l + 1 := by
  simp [countDiag, List.filter_append]

theorem dmObs_ftbScanP :
    ∀ fuel text pos ic ict ictabs icw hg hc td st,
      dmObs (ftbScan fuel text pos ic ict ictabs icw hg hc td st).1 = dmObs st := by
  intro fuel
  induction fuel with
  | zero =>
    intro text pos ic ict ictabs icw hg hc td st
    rfl
  | succ n ih =>
    intro text pos ic ict ictabs icw hg hc td st
    unfold ftbScan
    try dsimp only
    split
    · rfl
    split
    · rfl
    split
    case h_1 st' r heq =>
      exact dmObs_ftbBranch _ _ _ _ _ _ _ _ _ _ _ _ heq
    case h_2 text' pos' ic2 ict2 ictabs2 icw2 hg2 hc2 td2 st' heq =>
      exact Eq.trans (ih _ _ _ _ _ _ _ _ _ _) (dmObs_ftbBranch _ _ _ _ _ _ _ _ _ _ _ _ heq)
    case h_3 pre tagText post ep epost ic2 ict2 ictabs2 icw2 hg2 hc2 td2 st' heq =>
      split
      · exact dmObs_ftbBranch _ _ _ _ _ _ _ _ _ _ _ _ heq
      · exact Eq.trans (ih _ _ _ _ _ _ _ _ _ _) (dmObs_ftbBranch _ _ _ _ _ _ _ _ _ _ _ _ heq)

theorem dm_report (st2 st : St) (dep : Int)
    (h0 : countDiag Diag.depthMismatch st.emitted = 0) (he : st.errSink = true)
    (hobs : dmObs st2 = dmObs st) :
    countDiag Diag.depthMismatch
      (if dep > 0 then printError Diag.depthMismatch st2 else st2).emitted =
      if 0 < dep then 1 else 0 := by
  have h1 : countDiag Diag.depthMismatch st2.emitted = 0 := by
    have := congrArg Prod.fst hobs
    simp only [dmObs] at this
    exact this.trans h0
  have h2 : st2.errSink = true := by
    have := congrArg Prod.snd hobs
    simp only [dmObs] at this
    exact this.trans he
  split
  · rename_i hdep
    simp [printError, h2, countDiag_append_self, h1, hdep]
  · rename_i hdep
    simp [h1, hdep]
/-- C3 (amended).  With the default error routing and a clean log, the
tag scan itself never reports a depth mismatch: `format_text_block`
emits exactly one depth-mismatch diagnostic when the final `tag_depth`
is positive, and none when it is zero or negative
(rst_generation.py:565). -/
theorem c3_amended_depth_mismatch_reporting (text : Str) (st st' : St) (t : Str) (d : Int)
    (h0 : countDiag Diag.depthMismatch st.emitted = 0) (he : st.errSink = true)
    (h : formatTextBlock text st = (st', .out t d)) :
    countDiag Diag.depthMismatch st'.emitted = if 0 < d then 1 else 0 := by
  unfold formatTextBlock at h
  split at h
  · exact absurd (congrArg Prod.snd h) (fun hc => TRes.noConfusion hc)
  · rename_i x0 st1 heq1
    simp only [Prod.mk.injEq, TRes.out.injEq] at h
    obtain ⟨h1, h2, h3⟩ := h
    subst h1
    subst h3
    have hobs := dmObs_stage1 _ _ _ _ _ heq1
    have hc : countDiag Diag.depthMismatch st1.emitted = 0 := by
      have hfst := congrArg Prod.fst hobs
      simp only [dmObs] at hfst
      exact hfst.trans h0
    simp [hc]
  · dsimp only at h
    split at h
    · exact absurd (congrArg Prod.snd h) (fun hc => TRes.noConfusion hc)
    · split at h
      · exact absurd (congrArg Prod.snd h) (fun hc => TRes.noConfusion hc)
      · rename_i x0 st1 t1 heq1 x1 t2 heq2 x2 st2 t3 dep heq3
        simp only [Prod.mk.injEq, TRes.out.injEq] at h
        obtain ⟨h1, h2, h3⟩ := h
        subst h3
        rw [← h1]
        refine dm_report _ _ _ h0 he ?_
        have o1 : dmObs st1 = dmObs st := dmObs_stage1 _ _ _ _ _ heq1
        have o2 : dmObs st2 = dmObs st1 := by
          have hp := dmObs_ftbScanP (countChar '[' t2 + 2) t2 0 false [] false false false false 0 st1
          rw [heq3] at hp
          exact hp
        exact o2.trans o1

/-- Witness for C3 (amended): `"[i]x"` ends the scan at depth `1` and
yields exactly one depth-mismatch diagnostic. -/
theorem c3_amended_witness :
    countDiag Diag.depthMismatch (formatTextBlock (lit "[i]x") {}).1.emitted =
      if 0 < (1 : Int) then 1 else 0 :=
  c3_amended_depth_mismatch_reporting (lit "[i]x") {} (formatTextBlock (lit "[i]x") {}).1
    (lit "*x") 1 (by decide) (by decide) (by decide)

theorem getD_append_len {α : Type} (l : List α) (x d : α) :
    (l ++ [x]).getD l.length d = x := by
  induction l with
  | nil => rfl
  | cons a t ih => simp [ih]

theorem set_append_len {α : Type} (l : List α) (x y : α) :
    (l ++ [x]).set l.length y = l ++ [y] := by
  induction l with
  | nil => rfl
  | cons a t ih => simp [ih]

theorem ftf_R (F : Nat) (st : St) (selfId : Nat) (ext sub : List (TVal × Nat)) :
    fromTscnFile F st selfId ext sub [] [] (some (lit "[node name=\"R\"]\n")) =
      (setN st selfId
        { getN st selfId with
          name := lit "R", defName := lit "node",
          deprecated := none, experimental := none },
       [(lit ".", selfId)], [], .ret none) := by
  rfl

theorem nodeStep_R (F : Nat) (st : St) (ext sub : List (TVal × Nat)) :
    nodeStep F st ext sub [] [] (some (lit "[node name=\"R\"]\n")) =
      ({ st with nodeArena := st.nodeArena ++ [{ name := lit "R" }] },
       [(lit ".", st.nodeArena.length)], [], .ok (st.nodeArena.length, none)) := by
  unfold nodeStep
  rw [show pushN st {} =
      ({ st with nodeArena := st.nodeArena ++ [{}] }, st.nodeArena.length) from rfl]
  dsimp only
  rw [ftf_R]
  simp [setN, getN, getD_append_len, set_append_len]

theorem nodesLoop_done (st : St) (ext sub : List (TVal × Nat)) (nmap : List (Str × Nat)) :
    nodesLoop 2 st ext sub nmap [] none =
      ({ st with nodeArena := st.nodeArena ++ [{}] }, nmap, [], .ok []) := by
  rfl

theorem connLoop_nil (st : St) (sigs : List (TVal × ConnData)) (nmap : List (Str × Nat)) :
    connLoop 2 st sigs nmap [] [] = (st, sigs, none) := rfl

theorem parseFileInner_noDep (F : Nat) (st : St) :
    parseFileInner F st noDepFil =
      ({ st with nodeArena := st.nodeArena ++ [{ name := lit "R" }, {}] },
       { rootId := some st.nodeArena.length, sceneName := lit "R", signals := [] }, .ok) := by
  unfold parseFileInner
  rw [show readline noDepFil = (lit "[gd_scene format=3]\n", [lit "[node name=\"R\"]\n"]) from rfl]
  dsimp only
  rw [show parseForValue (lit "[gd_scene format=3]\n") (lit "format") = some (TVal.i 3) from rfl]
  dsimp only
  rw [if_neg (show ¬ (TVal.i 3 ≠ TVal.i 3) by decide)]
  rw [show readline [lit "[node name=\"R\"]\n"] = (lit "[node name=\"R\"]\n", ([] : Fil)) from rfl]
  dsimp only
  rw [show extLoop (List.length ([] : Fil) + 2) st (lit "[node name=\"R\"]\n") [] [] =
      (st, [], [], .cont (lit "[node name=\"R\"]\n")) from rfl]
  dsimp only
  rw [show subLoop (List.length ([] : Fil) + 2) st (lit "[node name=\"R\"]\n") [] [] [] none =
      (st, [], [], .cont (lit "[node name=\"R\"]\n")) from rfl]
  dsimp only
  rw [if_neg (show ¬ ¬ pyStarts (lit "[node name=\"R\"]\n") (lit "[node") = true by decide)]
  rw [nodeStep_R]
  dsimp only
  rw [show List.length ([] : Fil) + 2 = 2 from rfl, nodesLoop_done]
  dsimp only
  rw [show List.length ([] : Fil) + 2 = 2 from rfl, connLoop_nil]
  simp [getN, getD_append_len]

theorem parseFileM_noDep (key : Str) (st : St) :
    parseFileM key noDepFil st =
      ({ st with nodeArena := st.nodeArena ++ [{ name := lit "R" }, {}],
                 scenes := aSet st.scenes key
                   { rootId := some st.nodeArena.length, sceneName := lit "R", signals := [] } },
       .ok) := by
  unfold parseFileM
  rw [parseFileInner_noDep]

theorem depFile_noDep : DepFile noDepFil [] := by
  intro key st
  constructor
  · intro _
    refine ⟨_, { rootId := some st.nodeArena.length, sceneName := lit "R", signals := [] },
      parseFileM_noDep key st, ?_, ?_⟩
    · rfl
    · exact ⟨rfl, rfl, rfl, rfl, rfl⟩
  · rintro ⟨d, hd, -⟩
    exact absurd hd (List.not_mem_nil d)

theorem extLoop_oneDep_ok (st : St)
    (h : aMem st.scenes (lit "res://a.tscn") = true) :
    extLoop 3 st (lit "[ext_resource type=\"PackedScene\" path=\"res://a.tscn\" id=\"1\"]\n")
        [lit "[node name=\"R\"]\n"] [] =
      ({ st with
         resArena := st.resArena ++
           [{ path := some (TVal.s (lit "res://a.tscn")), typeName := lit "PackedScene",
              subRes := [], isExternal := true, sceneKey := some (lit "res://a.tscn") }] },
       [(TVal.s (lit "1"), st.resArena.length)], [], .cont (lit "[node name=\"R\"]\n")) := by
  show extLoop (2 + 1) _ _ _ _ = _
  unfold extLoop
  rw [if_neg (show ¬ ((lit "[ext_resource type=\"PackedScene\" path=\"res://a.tscn\" id=\"1\"]\n" : Str) = []) by decide)]
  rw [if_pos (show pyStarts (lit "[ext_resource type=\"PackedScene\" path=\"res://a.tscn\" id=\"1\"]\n") (lit "[ext_resource") = true by decide)]
  rw [show fromTscnData (lit "[ext_resource type=\"PackedScene\" path=\"res://a.tscn\" id=\"1\"]\n") =
      .ok { path := some (TVal.s (lit "res://a.tscn")), typeName := lit "PackedScene",
            subRes := [], isExternal := true, sceneKey := none } from rfl]
  dsimp only
  rw [show parseForValue (lit "[ext_resource type=\"PackedScene\" path=\"res://a.tscn\" id=\"1\"]\n") (lit "id") =
      some (TVal.s (lit "1")) from rfl]
  dsimp only
  rw [if_pos (show ((lit "PackedScene" : Str) = lit "PackedScene") by decide)]
  rw [if_neg (show ¬ ¬ (aMem
      (pushR st { path := some (TVal.s (lit "res://a.tscn")), typeName := lit "PackedScene",
                  subRes := [], isExternal := true, sceneKey := none }).1.scenes
      (lit "res://a.tscn") = true) from fun hc => hc h)]
  rw [show readline [lit "[node name=\"R\"]\n"] = (lit "[node name=\"R\"]\n", ([] : Fil)) from rfl]
  dsimp only
  rw [show ∀ st' e, extLoop 2 st' (lit "[node name=\"R\"]\n") [] e =
      (st', e, [], .cont (lit "[node name=\"R\"]\n")) from fun st' e => rfl]
  simp [pushR, getR, setR, getD_append_len, set_append_len, aSet]

theorem extLoop_oneDep_missing (st : St)
    (h : aMem st.scenes (lit "res://a.tscn") = false) :
    extLoop 3 st (lit "[ext_resource type=\"PackedScene\" path=\"res://a.tscn\" id=\"1\"]\n")
        [lit "[node name=\"R\"]\n"] [] =
      ({ st with
         resArena := st.resArena ++
           [{ path := some (TVal.s (lit "res://a.tscn")), typeName := lit "PackedScene",
              subRes := [], isExternal := true, sceneKey := none }] },
       [(TVal.s (lit "1"), st.resArena.length)], [lit "[node name=\"R\"]\n"], .notReady) := by
  show extLoop (2 + 1) _ _ _ _ = _
  unfold extLoop
  rw [if_neg (show ¬ ((lit "[ext_resource type=\"PackedScene\" path=\"res://a.tscn\" id=\"1\"]\n" : Str) = []) by decide)]
  rw [if_pos (show pyStarts (lit "[ext_resource type=\"PackedScene\" path=\"res://a.tscn\" id=\"1\"]\n") (lit "[ext_resource") = true by decide)]
  rw [show fromTscnData (lit "[ext_resource type=\"PackedScene\" path=\"res://a.tscn\" id=\"1\"]\n") =
      .ok { path := some (TVal.s (lit "res://a.tscn")), typeName := lit "PackedScene",
            subRes := [], isExternal := true, sceneKey := none } from rfl]
  dsimp only
  rw [show parseForValue (lit "[ext_resource type=\"PackedScene\" path=\"res://a.tscn\" id=\"1\"]\n") (lit "id") =
      some (TVal.s (lit "1")) from rfl]
  dsimp only
  rw [if_pos (show ((lit "PackedScene" : Str) = lit "PackedScene") by decide)]
  rw [if_pos (show ¬ (aMem
      (pushR st { path := some (TVal.s (lit "res://a.tscn")), typeName := lit "PackedScene",
                  subRes := [], isExternal := true, sceneKey := none }).1.scenes
      (lit "res://a.tscn") = true) from by simp [pushR, h])]
  simp [pushR, aSet]

theorem parseFileInner_oneDep_ok (F : Nat) (st : St)
    (h : aMem st.scenes (lit "res://a.tscn") = true) :
    parseFileInner F st (oneDepFil (lit "res://a.tscn")) =
      ({ st with
         nodeArena := st.nodeArena ++ [{ name := lit "R" }, {}],
         resArena := st.resArena ++
           [{ path := some (TVal.s (lit "res://a.tscn")), typeName := lit "PackedScene",
              subRes := [], isExternal := true, sceneKey := some (lit "res://a.tscn") }] },
       { rootId := some st.nodeArena.length, sceneName := lit "R", signals := [] }, .ok) := by
  unfold parseFileInner
  rw [show readline (oneDepFil (lit "res://a.tscn")) =
      (lit "[gd_scene format=3]\n",
       [lit "[ext_resource type=\"PackedScene\" path=\"res://a.tscn\" id=\"1\"]\n",
        lit "[node name=\"R\"]\n"]) from rfl]
  dsimp only
  rw [show parseForValue (lit "[gd_scene format=3]\n") (lit "format") = some (TVal.i 3) from rfl]
  dsimp only
  rw [if_neg (show ¬ (TVal.i 3 ≠ TVal.i 3) by decide)]
  rw [show readline [lit "[ext_resource type=\"PackedScene\" path=\"res://a.tscn\" id=\"1\"]\n",
        lit "[node name=\"R\"]\n"] =
      (lit "[ext_resource type=\"PackedScene\" path=\"res://a.tscn\" id=\"1\"]\n",
       [lit "[node name=\"R\"]\n"]) from rfl]
  dsimp only
  rw [show List.length [lit "[node name=\"R\"]\n"] + 2 = 3 from rfl]
  rw [extLoop_oneDep_ok st h]
  dsimp only
  rw [show List.length ([] : Fil) + 2 = 2 from rfl]
  rw [show ∀ st' e, subLoop 2 st' (lit "[node name=\"R\"]\n") [] e [] none =
      (st', [], [], .cont (lit "[node name=\"R\"]\n")) from fun st' e => rfl]
  dsimp only
  rw [if_neg (show ¬ ¬ pyStarts (lit "[node name=\"R\"]\n") (lit "[node") = true by decide)]
  rw [nodeStep_R]
  dsimp only
  rw [show List.length ([] : Fil) + 2 = 2 from rfl, nodesLoop_done]
  dsimp only
  rw [show List.length ([] : Fil) + 2 = 2 from rfl, connLoop_nil]
  simp [getN, getD_append_len]

theorem parseFileM_oneDep_ok (key : Str) (st : St)
    (h : aMem st.scenes (lit "res://a.tscn") = true) :
    parseFileM key (oneDepFil (lit "res://a.tscn")) st =
      ({ st with
         nodeArena := st.nodeArena ++ [{ name := lit "R" }, {}],
         resArena := st.resArena ++
           [{ path := some (TVal.s (lit "res://a.tscn")), typeName := lit "PackedScene",
              subRes := [], isExternal := true, sceneKey := some (lit "res://a.tscn") }],
         scenes := aSet st.scenes key
           { rootId := some st.nodeArena.length, sceneName := lit "R", signals := [] } },
       .ok) := by
  unfold parseFileM
  rw [parseFileInner_oneDep_ok _ _ h]

theorem parseFileM_oneDep_missing (key : Str) (st : St)
    (h : aMem st.scenes (lit "res://a.tscn") = false) :
    parseFileM key (oneDepFil (lit "res://a.tscn")) st =
      ({ st with
         resArena := st.resArena ++
           [{ path := some (TVal.s (lit "res://a.tscn")), typeName := lit "PackedScene",
              subRes := [], isExternal := true, sceneKey := none }] },
       .notReady) := by
  unfold parseFileM
  unfold parseFileInner
  rw [show readline (oneDepFil (lit "res://a.tscn")) =
      (lit "[gd_scene format=3]\n",
       [lit "[ext_resource type=\"PackedScene\" path=\"res://a.tscn\" id=\"1\"]\n",
        lit "[node name=\"R\"]\n"]) from rfl]
  dsimp only
  rw [show parseForValue (lit "[gd_scene format=3]\n") (lit "format") = some (TVal.i 3) from rfl]
  dsimp only
  rw [if_neg (show ¬ (TVal.i 3 ≠ TVal.i 3) by decide)]
  rw [show readline [lit "[ext_resource type=\"PackedScene\" path=\"res://a.tscn\" id=\"1\"]\n",
        lit "[node name=\"R\"]\n"] =
      (lit "[ext_resource type=\"PackedScene\" path=\"res://a.tscn\" id=\"1\"]\n",
       [lit "[node name=\"R\"]\n"]) from rfl]
  dsimp only
  rw [show List.length [lit "[node name=\"R\"]\n"] + 2 = 3 from rfl]
  rw [extLoop_oneDep_missing st h]

theorem depFile_oneDep :
    DepFile (oneDepFil (lit "res://a.tscn")) [lit "res://a.tscn"] := by
  intro key st
  constructor
  · intro hall
    have h : aMem st.scenes (lit "res://a.tscn") = true :=
      hall _ (List.mem_singleton_self _)
    refine ⟨_, { rootId := some st.nodeArena.length, sceneName := lit "R", signals := [] },
      parseFileM_oneDep_ok key st h, ?_, ?_⟩
    · rfl
    · exact ⟨rfl, rfl, rfl, rfl, rfl⟩
  · rintro ⟨d, hd, hfalse⟩
    have hd' : d = lit "res://a.tscn" := List.mem_singleton.mp hd
    subst hd'
    exact ⟨_, parseFileM_oneDep_missing key st hfalse, rfl, rfl, rfl, rfl, rfl, rfl⟩

theorem scenePass_spec (B : List SpecFile) :
    ∀ (files : List SpecFile) (st : St),
      (∀ f ∈ files, DepFile f.fil f.deps) →
      ((files.map SpecFile.key).Nodup) →
      (∀ f ∈ B, ∃ d ∈ f.deps, aMem st.scenes d = false ∧
        ∀ g ∈ files, g.key = d → g ∈ B) →
      ∃ (rem : List SpecFile) (st' : St),
        scenePass (files.map sfPair) st = (rem.map sfPair, st', none) ∧
        rem.Sublist files ∧
        (∀ k, aMem st.scenes k = true → aMem st'.scenes k = true) ∧
        (∀ g ∈ files, ¬ g ∈ rem → aMem st'.scenes g.key = true) ∧
        (∀ g ∈ rem, ∃ d ∈ g.deps, aMem st.scenes d = false) ∧
        (∀ k, aMem st'.scenes k = true →
          aMem st.scenes k = true ∨ ∃ g ∈ files, ¬ g ∈ rem ∧ g.key = k) ∧
        (∀ g ∈ files, g ∈ B → g ∈ rem) := by
  intro files
  induction files with
  | nil =>
    intro st _ _ _
    exact ⟨[], st, rfl, List.Sublist.refl _, fun k h => h,
      fun g hg => absurd hg (List.not_mem_nil g),
      fun g hg => absurd hg (List.not_mem_nil g),
      fun k h => Or.inl h,
      fun g hg => absurd hg (List.not_mem_nil g)⟩
  | cons f fs ih =>
    intro st hdf hnd hB
    have hnd' : (fs.map SpecFile.key).Nodup := (List.nodup_cons.mp hnd).2
    have hkey : ¬ f.key ∈ fs.map SpecFile.key := (List.nodup_cons.mp hnd).1
    obtain ⟨rem', st1, heq, hsub, hmono, hreg, hmiss, hgain, hnoB⟩ :=
      ih st (fun g hg => hdf g (List.mem_cons_of_mem f hg)) hnd'
        (fun g hg =>
          let ⟨d, hd, hf2, hprov⟩ := hB g hg
          ⟨d, hd, hf2, fun g' hg' => hprov g' (List.mem_cons_of_mem f hg')⟩)
    have hfnotfs : ¬ f ∈ rem' := by
      intro hf
      exact hkey (List.mem_map_of_mem SpecFile.key (hsub.subset hf))
    by_cases hall : ∀ d ∈ f.deps, aMem st1.scenes d = true
    · obtain ⟨st2, scene, hpf, hsc, hqs⟩ := ((hdf f (List.mem_cons_self f fs)) f.key st1).1 hall
      refine ⟨rem', st2, ?_, hsub.cons f, ?_, ?_, ?_, ?_, ?_⟩
      · simp only [List.map_cons, scenePass, heq, sfPair, hpf]
      · intro k hk
        simp [hsc, aMem_aSet, hmono k hk]
      · intro g hg hgrem
        rcases List.mem_cons.mp hg with hgf | hgfs
        · subst hgf
          simp [hsc, aMem_aSet]
        · have := hreg g hgfs hgrem
          simp [hsc, aMem_aSet, this]
      · exact hmiss
      · intro k hk
        rw [hsc, aMem_aSet] at hk
        rcases Bool.or_eq_true_iff.mp hk with hk1 | hk2
        · exact Or.inr ⟨f, List.mem_cons_self f fs, hfnotfs, (of_decide_eq_true hk1).symm⟩
        · rcases hgain k hk2 with h1 | ⟨g, hgfs, hgrem, hgk⟩
          · exact Or.inl h1
          · exact Or.inr ⟨g, List.mem_cons_of_mem f hgfs, hgrem, hgk⟩
      · intro g hg hgB
        rcases List.mem_cons.mp hg with hgf | hgfs
        · subst hgf
          exfalso
          obtain ⟨d, hdmem, hdfalse, hprov⟩ := hB g hgB
          have hd1 : aMem st1.scenes d = true := hall d hdmem
          rcases hgain d hd1 with h1 | ⟨g', hg'fs, hg'rem, hg'k⟩
          · rw [hdfalse] at h1
            exact Bool.noConfusion h1
          · have hg'B : g' ∈ B := hprov g' (List.mem_cons_of_mem g hg'fs) hg'k
            exact hg'rem (hnoB g' hg'fs hg'B)
        · exact hnoB g hgfs hgB
    · have hex : ∃ d ∈ f.deps, aMem st1.scenes d = false := by
        push_neg at hall
        obtain ⟨d, hd, hne⟩ := hall
        exact ⟨d, hd, Bool.not_eq_true _ ▸ Bool.of_not_eq_true hne⟩
      obtain ⟨st2, hpf, hsc, hqs⟩ := ((hdf f (List.mem_cons_self f fs)) f.key st1).2 hex
      have hscmem : ∀ k, aMem st2.scenes k = aMem st1.scenes k := fun k => by rw [hsc]
      refine ⟨f :: rem', st2, ?_, hsub.cons₂ f, ?_, ?_, ?_, ?_, ?_⟩
      · simp only [List.map_cons, scenePass, heq, sfPair, hpf]
      · intro k hk
        rw [hscmem]
        exact hmono k hk
      · intro g hg hgrem
        have hgne : g ≠ f := fun hgf => hgrem (hgf ▸ List.mem_cons_self f rem')
        have hgfs : g ∈ fs := by
          rcases List.mem_cons.mp hg with h1 | h1
          · exact absurd h1 hgne
          · exact h1
        have hgrem' : ¬ g ∈ rem' := fun hc => hgrem (List.mem_cons_of_mem f hc)
        rw [hscmem]
        exact hreg g hgfs hgrem'
      · intro g hg
        rcases List.mem_cons.mp hg with hgf | hgrem'
        · subst hgf
          obtain ⟨d, hd, hdfalse⟩ := hex
          refine ⟨d, hd, ?_⟩
          cases hst : aMem st.scenes d with
          | false => rfl
          | true =>
            rw [hmono d hst] at hdfalse
            exact Bool.noConfusion hdfalse
        · exact hmiss g hgrem'
      · intro k hk
        rw [hscmem] at hk
        rcases hgain k hk with h1 | ⟨g, hgfs, hgrem, hgk⟩
        · exact Or.inl h1
        · refine Or.inr ⟨g, List.mem_cons_of_mem f hgfs, ?_, hgk⟩
          intro hc
          rcases List.mem_cons.mp hc with h2 | h2
          · subst h2
            exact hkey (List.mem_map_of_mem SpecFile.key hgfs)
          · exact hgrem h2
      · intro g hg hgB
        rcases List.mem_cons.mp hg with hgf | hgfs
        · exact hgf ▸ List.mem_cons_self f rem'
        · exact List.mem_cons_of_mem f (hnoB g hgfs hgB)

theorem exists_min_rank {α : Type} (v : α → Nat) :
    ∀ (l : List α), l ≠ [] → ∃ x ∈ l, ∀ y ∈ l, v x ≤ v y := by
  intro l
  induction l with
  | nil => intro h; exact absurd rfl h
  | cons a t ih =>
    intro _
    cases t with
    | nil => exact ⟨a, List.mem_cons_self a [], fun y hy => by
        rcases List.mem_cons.mp hy with h | h
        · exact h ▸ Nat.le_refl _
        · exact absurd h (List.not_mem_nil y)⟩
    | cons b t' =>
      obtain ⟨x, hx, hmin⟩ := ih (by simp)
      by_cases hax : v a ≤ v x
      · refine ⟨a, List.mem_cons_self a _, fun y hy => ?_⟩
        rcases List.mem_cons.mp hy with h | h
        · exact h ▸ Nat.le_refl _
        · exact Nat.le_trans hax (hmin y h)
      · refine ⟨x, List.mem_cons_of_mem a hx, fun y hy => ?_⟩
        rcases List.mem_cons.mp hy with h | h
        · exact h ▸ Nat.le_of_lt (Nat.lt_of_not_le hax)
        · exact hmin y h

theorem loadLoop_dag :
    ∀ (N : Nat) (rank : Str → Nat) (fuel : Nat) (files : List SpecFile) (st : St) (passes : Nat),
      files.length < fuel →
      (∀ f ∈ files, DepFile f.fil f.deps) →
      ((files.map SpecFile.key).Nodup) →
      (∀ f ∈ files, rank f.key < N) →
      (∀ f ∈ files, ∀ d ∈ f.deps, aMem st.scenes d = true ∨
        ∃ g ∈ files, g.key = d ∧ rank g.key < rank f.key) →
      ∃ (st' : St) (p : Nat),
        loadLoop fuel (files.map sfPair) st passes = (st', [], p, none) ∧
        p ≤ passes + N ∧
        (∀ k, aMem st.scenes k = true → aMem st'.scenes k = true) ∧
        (∀ f ∈ files, aMem st'.scenes f.key = true) := by
  intro N
  induction N with
  | zero =>
    intro rank fuel files st passes hfuel hdf hnd hrank hJ
    cases files with
    | cons f fs => exact absurd (hrank f (List.mem_cons_self f fs)) (Nat.not_lt_zero _)
    | nil =>
      cases fuel with
      | zero => exact absurd hfuel (Nat.not_lt_zero 0)
      | succ n =>
        exact ⟨st, passes, rfl, Nat.le_refl _, fun k h => h,
          fun f hf => absurd hf (List.not_mem_nil f)⟩
  | succ N ihN =>
    intro rank fuel files st passes hfuel hdf hnd hrank hJ
    cases files with
    | nil =>
      cases fuel with
      | zero => exact absurd hfuel (Nat.not_lt_zero 0)
      | succ n =>
        exact ⟨st, passes, rfl, Nat.le_add_right _ _, fun k h => h,
          fun f hf => absurd hf (List.not_mem_nil f)⟩
    | cons f0 fs0 =>
      cases fuel with
      | zero => exact absurd hfuel (Nat.not_lt_zero _)
      | succ fuel' =>
        obtain ⟨rem, st1, heq, hsub, hmono, hreg, hmiss, hgain, -⟩ :=
          scenePass_spec [] (f0 :: fs0) st hdf hnd
            (fun g hg => absurd hg (List.not_mem_nil g))
        -- the minimal-rank file is removed during the pass
        obtain ⟨fm, hfm, hfmmin⟩ :=
          exists_min_rank (fun f => rank f.key) (f0 :: fs0) (by simp)
        have hfmdeps : ∀ d ∈ fm.deps, aMem st.scenes d = true := by
          intro d hd
          rcases hJ fm hfm d hd with h1 | ⟨g, hg, hgk, hglt⟩
          · exact h1
          · exact absurd (hfmmin g hg) (Nat.not_le_of_lt hglt)
        have hfmrem : ¬ fm ∈ rem := by
          intro hc
          obtain ⟨d, hd, hdf2⟩ := hmiss fm hc
          rw [hfmdeps d hd] at hdf2
          exact Bool.noConfusion hdf2
        have hlen : rem.length < (f0 :: fs0).length := by
          rcases Nat.lt_or_ge rem.length (f0 :: fs0).length with h | h
          · exact h
          · exfalso
            have heqlist : rem = f0 :: fs0 :=
              hsub.eq_of_length (Nat.le_antisymm hsub.length_le h)
            exact hfmrem (heqlist ▸ hfm)
        -- ranks of remaining files are at least 1
        have hrank1 : ∀ g ∈ rem, 1 ≤ rank g.key := by
          intro g hg
          by_contra hc
          have hg0 : rank g.key = 0 := Nat.eq_zero_of_not_pos hc
          have hdeps : ∀ d ∈ g.deps, aMem st.scenes d = true := by
            intro d hd
            rcases hJ g (hsub.subset hg) d hd with h1 | ⟨g', hg', hgk', hglt'⟩
            · exact h1
            · rw [hg0] at hglt'
              exact absurd hglt' (Nat.not_lt_zero _)
          obtain ⟨d, hd, hdf2⟩ := hmiss g hg
          rw [hdeps d hd] at hdf2
          exact Bool.noConfusion hdf2
        obtain ⟨st2, p, hloop, hp, hmono2, hreg2⟩ :=
          ihN (fun k => rank k - 1) fuel' rem st1 (passes + 1)
            (Nat.lt_of_lt_of_le hlen (Nat.lt_succ_iff.mp hfuel))
            (fun g hg => hdf g (hsub.subset hg))
            (hnd.sublist (hsub.map SpecFile.key))
            (fun g hg => by
              have h2 := hrank g (hsub.subset hg)
              have h1 := hrank1 g hg
              show rank g.key - 1 < N
              omega)
            (fun g hg d hd => by
              rcases hJ g (hsub.subset hg) d hd with h1 | ⟨g', hg', hgk', hglt'⟩
              · exact Or.inl (hmono d h1)
              · by_cases hg'rem : g' ∈ rem
                · refine Or.inr ⟨g', hg'rem, hgk', ?_⟩
                  have h1 := hrank1 g' hg'rem
                  have h2 := hrank1 g hg
                  show rank g'.key - 1 < rank g.key - 1
                  omega
                · exact Or.inl (hgk' ▸ hreg g' hg' hg'rem))
        refine ⟨st2, p, ?_, ?_, fun k hk => hmono2 k (hmono k hk), ?_⟩
        case _ =>
          show loadLoop (fuel' + 1) ((f0 :: fs0).map sfPair) st passes = _
          unfold loadLoop
          simp only [List.map_cons] at heq ⊢
          rw [heq]
          dsimp only
          rw [if_neg (by
            simp only [List.length_map, List.length_cons]
            have h2 : rem.length < fs0.length + 1 := by simpa using hlen
            omega)]
          exact hloop
        case _ =>
          exact le_of_le_of_eq hp (by ring)
        case _ =>
          intro g hg
          by_cases hgrem : g ∈ rem
          · exact hreg2 g hgrem
          · exact hmono2 g.key (hreg g hg hgrem)

theorem scenes_foldl_printError (r : List (Str × Fil)) :
    ∀ (st : St), (r.foldl (fun st f => printError (Diag.couldNotParse f.1) st) st).scenes =
      st.scenes := by
  induction r with
  | nil => intro st; rfl
  | cons a t ih =>
    intro st
    rw [List.foldl_cons, ih, scenes_printError]

theorem scenes_emitBatchFailure (r : List (Str × Fil)) (st : St) :
    (emitBatchFailure r st).scenes = st.scenes := by
  unfold emitBatchFailure
  rw [scenes_foldl_printError, scenes_printError]

theorem loadLoop_blocked (B : List SpecFile) :
    ∀ (fuel : Nat) (files : List SpecFile) (st : St) (passes : Nat),
      files.length < fuel →
      (∀ f ∈ files, DepFile f.fil f.deps) →
      ((files.map SpecFile.key).Nodup) →
      B ≠ [] →
      (∀ f ∈ B, f ∈ files) →
      (∀ f ∈ B, ∃ d ∈ f.deps, aMem st.scenes d = false ∧ ∀ g ∈ files, g.key = d → g ∈ B) →
      (∀ f ∈ files, aMem st.scenes f.key = false) →
      ∃ (st' : St) (rem : List SpecFile) (p : Nat),
        loadLoop fuel (files.map sfPair) st passes = (st', rem.map SpecFile.key, p, none) ∧
        rem.Sublist files ∧ rem ≠ [] ∧ (∀ f ∈ B, f ∈ rem) ∧
        (∀ f ∈ rem, aMem st'.scenes f.key = false) ∧
        (∀ f ∈ files, ¬ f ∈ rem → aMem st'.scenes f.key = true) ∧
        (∀ k, aMem st.scenes k = true → aMem st'.scenes k = true) := by
  intro fuel
  induction fuel with
  | zero =>
    intro files st passes hfuel
    exact absurd hfuel (Nat.not_lt_zero _)
  | succ fuel' ih =>
    intro files st passes hfuel hdf hnd hBne hBmem hB hnotpre
    obtain ⟨b0, hb0⟩ : ∃ b, b ∈ B := by
      cases B with
      | nil => exact absurd rfl hBne
      | cons b t => exact ⟨b, List.mem_cons_self b t⟩
    have hfilesne : files ≠ [] := fun hc => by
      rw [hc] at hBmem
      exact absurd (hBmem b0 hb0) (List.not_mem_nil b0)
    obtain ⟨rem, st1, heq, hsub, hmono, hreg, hmiss, hgain, hnoB⟩ :=
      scenePass_spec B files st hdf hnd hB
    have hBrem : ∀ f ∈ B, f ∈ rem := fun f hf => hnoB f (hBmem f hf) hf
    have hremne : rem ≠ [] := fun hc => by
      rw [hc] at hBrem
      exact absurd (hBrem b0 hb0) (List.not_mem_nil b0)
    have hinj := List.inj_on_of_nodup_map hnd
    have hst1unreg : ∀ f ∈ rem, aMem st1.scenes f.key = false := by
      intro f hf
      cases h : aMem st1.scenes f.key with
      | false => rfl
      | true =>
        exfalso
        rcases hgain f.key h with h1 | ⟨g, hgmem, hgrem, hgk⟩
        · rw [hnotpre f (hsub.subset hf)] at h1
          exact Bool.noConfusion h1
        · have : g = f := hinj hgmem (hsub.subset hf) hgk
          exact hgrem (this ▸ hf)
    cases hfiles : files with
    | nil => exact absurd hfiles hfilesne
    | cons f0 fs0 =>
      subst hfiles
      by_cases hstop : rem.length = (f0 :: fs0).length
      · have heqlist : rem = f0 :: fs0 := hsub.eq_of_length (Nat.le_antisymm hsub.length_le (Nat.le_of_eq hstop.symm))
        refine ⟨emitBatchFailure (rem.map sfPair) st1, rem, passes + 1, ?_, hsub, hremne,
          hBrem, ?_, ?_, ?_⟩
        · unfold loadLoop
          simp only [List.map_cons] at heq ⊢
          rw [heq]
          dsimp only
          rw [if_pos (by
            simp only [List.length_map, List.length_cons]
            simpa [List.length_cons] using hstop)]
          rw [List.map_map]
          rfl
        · intro f hf
          rw [scenes_emitBatchFailure]
          exact hst1unreg f hf
        · intro f hf hfrem
          exact absurd (heqlist ▸ hf) hfrem
        · intro k hk
          rw [scenes_emitBatchFailure]
          exact hmono k hk
      · have hlenlt : rem.length < (f0 :: fs0).length :=
          Nat.lt_of_le_of_ne hsub.length_le hstop
        obtain ⟨st2, rem2, p, heq2, hsub2, hne2, hB2, hunreg2, hreg2, hmono2⟩ :=
          ih rem st1 (passes + 1)
            (by
              have h1 : (f0 :: fs0).length ≤ fuel' := Nat.lt_succ_iff.mp hfuel
              omega)
            (fun g hg => hdf g (hsub.subset hg))
            (hnd.sublist (hsub.map SpecFile.key))
            hBne hBrem
            (fun f hf => by
              obtain ⟨d, hd, hdfalse, hprov⟩ := hB f hf
              refine ⟨d, hd, ?_, fun g hg hgk => hprov g (hsub.subset hg) hgk⟩
              cases h : aMem st1.scenes d with
              | false => rfl
              | true =>
                exfalso
                rcases hgain d h with h1 | ⟨g, hgmem, hgrem, hgk⟩
                · rw [hdfalse] at h1
                  exact Bool.noConfusion h1
                · exact hgrem (hnoB g hgmem (hprov g hgmem hgk))
            )
            hst1unreg
        refine ⟨st2, rem2, p, ?_, hsub2.trans hsub, hne2, hB2, hunreg2, ?_, ?_⟩
        · unfold loadLoop
          simp only [List.map_cons] at heq ⊢
          rw [heq]
          dsimp only
          rw [if_neg (by
            simp only [List.length_map, List.length_cons]
            have h2 : rem.length < fs0.length + 1 := by simpa using hlenlt
            omega)]
          exact heq2
        · intro f hf hfrem2
          by_cases hfrem : f ∈ rem
          · exact hreg2 f hfrem hfrem2
          · exact hmono2 f.key (hreg f hf hfrem)
        · intro k hk
          exact hmono2 k (hmono k hk)

/-- C4.  A batch of scene files whose external-scene dependencies form
a DAG whose ranks are bounded by `N` is fully registered by the retry
loop within `N` passes with no batch failure; a batch containing a
blocked subset (a dependency cycle, or a dependency nothing provides)
stops at the first zero-progress pass with a batch-failure report
naming exactly the still-unparsed files (godot_docgen.py:66-82). -/
theorem c4_retry_loop_contract :
    (∀ (files : List SpecFile) (st : St) (rank : Str → Nat) (N : Nat),
      (∀ f ∈ files, DepFile f.fil f.deps) →
      ((files.map SpecFile.key).Nodup) →
      (∀ f ∈ files, rank f.key < N) →
      (∀ f ∈ files, ∀ d ∈ f.deps, aMem st.scenes d = true ∨
        ∃ g ∈ files, g.key = d ∧ rank g.key < rank f.key) →
      ∃ (st' : St) (p : Nat),
        loadScenes (files.map sfPair) st = (st', [], p, none) ∧ p ≤ N ∧
        (∀ f ∈ files, aMem st'.scenes f.key = true)) ∧
    (∀ (files B : List SpecFile) (st : St),
      (∀ f ∈ files, DepFile f.fil f.deps) →
      ((files.map SpecFile.key).Nodup) →
      B ≠ [] →
      (∀ f ∈ B, f ∈ files) →
      (∀ f ∈ B, ∃ d ∈ f.deps, aMem st.scenes d = false ∧ ∀ g ∈ files, g.key = d → g ∈ B) →
      (∀ f ∈ files, aMem st.scenes f.key = false) →
      ∃ (st' : St) (rem : List SpecFile) (p : Nat),
        loadScenes (files.map sfPair) st = (st', rem.map SpecFile.key, p, none) ∧
        rem ≠ [] ∧ (∀ f ∈ B, f ∈ rem) ∧ (∀ f ∈ rem, f ∈ files) ∧
        (∀ f ∈ rem, aMem st'.scenes f.key = false) ∧
        (∀ f ∈ files, ¬ f ∈ rem → aMem st'.scenes f.key = true)) := by
  constructor
  · intro files st rank N hdf hnd hrank hJ
    obtain ⟨st', p, heq, hp, hmono, hreg⟩ :=
      loadLoop_dag N rank ((files.map sfPair).length + 2) files st 0
        (by simp) hdf hnd hrank hJ
    exact ⟨st', p, heq, by omega, hreg⟩
  · intro files B st hdf hnd hBne hBmem hB hnotpre
    obtain ⟨st', rem, p, heq, hsub, hne, hBrem, hunreg, hreg, hmono⟩ :=
      loadLoop_blocked B ((files.map sfPair).length + 2) files st 0
        (by simp) hdf hnd hBne hBmem hB hnotpre
    exact ⟨st', rem, p, heq, hne, hBrem, fun f hf => hsub.subset hf, hunreg, hreg⟩

/-- Witness for C4: a two-file DAG (`b` depends on `a`) resolves within
two passes with both scenes registered, and a single file with an
unsatisfiable dependency is reported as the one still-unparsed file. -/
theorem c4_witness :
    (∃ (st' : St) (p : Nat),
      loadScenes ([⟨lit "res://b.tscn", oneDepFil (lit "res://a.tscn"), [lit "res://a.tscn"]⟩,
                   ⟨lit "res://a.tscn", noDepFil, []⟩].map sfPair) {} = (st', [], p, none) ∧
      p ≤ 2 ∧
      (∀ f ∈ [(⟨lit "res://b.tscn", oneDepFil (lit "res://a.tscn"), [lit "res://a.tscn"]⟩ : SpecFile),
               ⟨lit "res://a.tscn", noDepFil, []⟩],
        aMem st'.scenes f.key = true)) ∧
    (∃ (st' : St) (rem : List SpecFile) (p : Nat),
      loadScenes ([⟨lit "res://b.tscn", oneDepFil (lit "res://a.tscn"), [lit "res://a.tscn"]⟩].map sfPair) {} =
        (st', rem.map SpecFile.key, p, none) ∧
      rem ≠ [] ∧
      (∀ f ∈ [(⟨lit "res://b.tscn", oneDepFil (lit "res://a.tscn"), [lit "res://a.tscn"]⟩ : SpecFile)],
        f ∈ rem) ∧
      (∀ f ∈ rem,
        f ∈ [(⟨lit "res://b.tscn", oneDepFil (lit "res://a.tscn"), [lit "res://a.tscn"]⟩ : SpecFile)]) ∧
      (∀ f ∈ rem, aMem st'.scenes f.key = false) ∧
      (∀ f ∈ [(⟨lit "res://b.tscn", oneDepFil (lit "res://a.tscn"), [lit "res://a.tscn"]⟩ : SpecFile)],
        ¬ f ∈ rem → aMem st'.scenes f.key = true)) := by
  constructor
  · refine c4_retry_loop_contract.1 _ {} (fun k => if k = lit "res://b.tscn" then 1 else 0) 2 ?_ ?_ ?_ ?_
    · intro f hf
      rcases List.mem_cons.mp hf with h | h
      · subst h
        exact depFile_oneDep
      · rcases List.mem_cons.mp h with h2 | h2
        · subst h2
          exact depFile_noDep
        · exact absurd h2 (List.not_mem_nil f)
    · decide
    · decide
    · decide
  · refine c4_retry_loop_contract.2 _ [⟨lit "res://b.tscn", oneDepFil (lit "res://a.tscn"), [lit "res://a.tscn"]⟩] {}
      ?_ ?_ ?_ ?_ ?_ ?_
    · intro f hf
      rcases List.mem_cons.mp hf with h | h
      · subst h
        exact depFile_oneDep
      · exact absurd h (List.not_mem_nil f)
    · decide
    · decide
    · decide
    · decide
    · decide

end GD
